import Mathlib

/-!
Verification development for the dgkit streaming-ingestion engine.

The definitions below are a shallow embedding of the Python sources:
`src/dgkit/parsers.py`, `src/dgkit/models.py`, `src/dgkit/filters.py`,
`src/dgkit/pipeline.py`, `src/dgkit/summary.py`, `src/dgkit/validation.py`
and `src/dgkit/writers.py`.  Python's `None`-able strings are `Option String`,
Python `int` is `Int` (arbitrary precision in both), exceptions are
`Except String`.  Each definition mirrors its source function; theorems at
the end settle the specification claims.
-/

namespace Dgkit

/-- A single-quote character, for building Python-style error messages. -/
def sq : String := "\x27"

/-- Python truthiness of a `str | None` value: `None` and `""` are falsy. -/
def strTruthy : Option String → Bool
  | none => false
  | some s => s ≠ ""

/-- Python `a or b` on `str | None` operands: `a` when truthy, else `b`. -/
def pyOrStr (a b : Option String) : Option String :=
  if strTruthy a then a else b

/-- Digit-run accumulator used by `pyInt`: consumes decimal digits, `none`
on a non-digit or when no digit was seen. -/
def parseDigits : List Char → Option Nat → Option Nat
  | [], acc => acc
  | c :: cs, acc =>
      if c.isDigit then parseDigits cs (some ((acc.getD 0) * 10 + (c.toNat - 48)))
      else none

/-- Whitespace as Python `str.strip` removes it. -/
def isSpaceChar (c : Char) : Bool :=
  c = ' ' || c = '\t' || c = '\n' || c = '\r' || c = '\x0b' || c = '\x0c'

/-- Python `s.strip()` on a character list. -/
def stripChars (cs : List Char) : List Char :=
  ((cs.dropWhile isSpaceChar).reverse.dropWhile isSpaceChar).reverse

/-- Equality of `Except` values is decidable (needed to evaluate embedded
fallible functions on concrete inputs). -/
instance {ε α : Type} [DecidableEq ε] [DecidableEq α] :
    DecidableEq (Except ε α) := fun x y =>
  match x, y with
  | .error a, .error b =>
      if h : a = b then isTrue (by rw [h]) else isFalse (by simp [h])
  | .ok a, .ok b =>
      if h : a = b then isTrue (by rw [h]) else isFalse (by simp [h])
  | .error _, .ok _ => isFalse (by simp)
  | .ok _, .error _ => isFalse (by simp)

/-- The value of Python `int(s)` when it succeeds: optional sign followed by
a non-empty digit run, surrounding whitespace stripped. -/
def strToInt? (s : String) : Option Int :=
  match stripChars s.data with
  | '-' :: cs => (parseDigits cs none).map (fun n => -(n : Int))
  | '+' :: cs => (parseDigits cs none).map (fun n => (n : Int))
  | cs => (parseDigits cs none).map (fun n => (n : Int))

/-- Python `int(s)`: returns the integer or raises `ValueError`. -/
def pyInt (s : String) : Except String Int :=
  match strToInt? s with
  | some n => Except.ok n
  | none =>
      Except.error ("invalid literal for int() with base 10: " ++ sq ++ s ++ sq)

/-- Python `int(t) if t else None` on a `str | None` value `t`. -/
def pyIntOptional (t : Option String) : Except String (Option Int) :=
  if strTruthy t then (pyInt (t.getD "")).map some else Except.ok none

/-- Association-list lookup, modelling Python `dict.get` / `dict[k]`. -/
def alistGet {κ α : Type} [DecidableEq κ] : List (κ × α) → κ → Option α
  | [], _ => none
  | (k, v) :: rest, key => if k = key then some v else alistGet rest key

/-- Association-list update, modelling Python `dict[k] = v` (updates the
existing entry in place, otherwise appends at the end, preserving
insertion order). -/
def alistSet {κ α : Type} [DecidableEq κ] : List (κ × α) → κ → α → List (κ × α)
  | [], key, v => [(key, v)]
  | (k, w) :: rest, key, v =>
      if k = key then (key, v) :: rest else (k, w) :: alistSet rest key v

/-- Python `set.add` on a set modelled as a duplicate-free insertion-ordered
list: no-op when the element is already present. -/
def setAdd (l : List String) (x : String) : List String :=
  if x ∈ l then l else l ++ [x]

/-! ## XML element model

`XmlElem` models the `lxml.etree._Element` surface the dgkit code uses:
a tag, ordered attributes, optional text, and ordered children. -/

inductive XmlElem : Type where
  | mk (tag : String) (attrib : List (String × String)) (text : Option String)
      (children : List XmlElem)

/-- The element's tag. -/
def XmlElem.tag : XmlElem → String
  | .mk t _ _ _ => t

/-- The element's attribute list. -/
def XmlElem.attrib : XmlElem → List (String × String)
  | .mk _ a _ _ => a

/-- The element's text, `none` when absent (lxml `None`). -/
def XmlElem.text : XmlElem → Option String
  | .mk _ _ t _ => t

/-- The element's children, in document order. -/
def XmlElem.children : XmlElem → List XmlElem
  | .mk _ _ _ c => c

/-- `elem.get(attr)`: the attribute's value, or `None` when missing. -/
def XmlElem.get (e : XmlElem) (attr : String) : Option String :=
  alistGet e.attrib attr

/-- `elem.find(tag)`: the first child with the given tag, or `None`. -/
def XmlElem.find (e : XmlElem) (tag : String) : Option XmlElem :=
  e.children.find? (fun c => c.tag = tag)

/-- `elem.findall(tag)`: all children with the given tag, in order. -/
def XmlElem.findall (e : XmlElem) (tag : String) : List XmlElem :=
  e.children.filter (fun c => c.tag = tag)

/-- `elem.findtext(tag)` with default `None`: `None` when no matching child,
otherwise the child's text with `None` read as `""` (ElementTree semantics:
`elem.text or ""`). -/
def XmlElem.findtextOpt (e : XmlElem) (tag : String) : Option String :=
  (e.find tag).map (fun c => (pyOrStr c.text (some "")).getD "")

/-- `[e.text for e in parent.findall(tag) if e.text]`: the truthy texts of
matching children (the inlined `_parse_text_list` pattern in `parsers.py`). -/
def textList (es : List XmlElem) : List String :=
  es.filterMap (fun e => if strTruthy e.text then some (e.text.getD "") else none)

/-! ## Record models (`src/dgkit/models.py`)

The `StrEnum`-typed fields (`DataQuality`, `FormatName`, …) are plain
strings at runtime (the parsers never convert to the enum), so they are
modelled as `String`. -/

/-- `ArtistRef` — reference to another artist. -/
structure ArtistRef where
  id : Int
  name : String
deriving DecidableEq, Repr

/-- `Artist` record. -/
structure Artist where
  id : Int
  data_quality : Option String
  name : Option String
  profile : Option String
  real_name : Option String
  aliases : List ArtistRef
  groups : List ArtistRef
  members : List ArtistRef
  name_variations : List String
  urls : List String
deriving DecidableEq, Repr

/-- `LabelRef` — reference to another label. -/
structure LabelRef where
  id : Int
  name : String
deriving DecidableEq, Repr

/-- `Label` record. -/
structure Label where
  id : Int
  contact_info : Option String
  data_quality : Option String
  name : Option String
  profile : Option String
  parent_label : Option LabelRef
  sub_labels : List LabelRef
  urls : List String
deriving DecidableEq, Repr

/-- `CreditArtist` — artist credit on a release or master. -/
structure CreditArtist where
  id : Int
  artist_name_variation : Option String
  join : Option String
  name : String
deriving DecidableEq, Repr

/-- `ExtraArtist` — extra artist credit with role. -/
structure ExtraArtist where
  id : Option Int
  artist_name_variation : Option String
  name : String
  role : Option String
  tracks : Option String
deriving DecidableEq, Repr

/-- `ReleaseLabel` — label credit on a release. -/
structure ReleaseLabel where
  id : Int
  catalog_number : Option String
  name : String
deriving DecidableEq, Repr

/-- `Format` — physical format of a release.  NOTE: `models.py` declares
`quantity: int` and `parsers.py` builds it with `int(quantity_text)`. -/
structure Format where
  name : String
  quantity : Int
  text : Option String
  descriptions : List String
deriving DecidableEq, Repr

/-- `SubTrack` — sub-track within a track. -/
structure SubTrack where
  duration : Option String
  position : Option String
  title : Option String
  artists : List CreditArtist
  extra_artists : List ExtraArtist
deriving DecidableEq, Repr

/-- `Track` on a release. -/
structure Track where
  duration : Option String
  position : Option String
  title : Option String
  artists : List CreditArtist
  extra_artists : List ExtraArtist
  sub_tracks : List SubTrack
deriving DecidableEq, Repr

/-- `Identifier` — barcode, matrix, etc. -/
structure Identifier where
  description : Option String
  type : String
  value : String
deriving DecidableEq, Repr

/-- `Company` — company credit on a release. -/
structure Company where
  id : Int
  catalog_number : Option String
  entity_type : Option Int
  entity_type_name : Option String
  name : String
deriving DecidableEq, Repr

/-- `Series` a release belongs to. -/
structure Series where
  id : Int
  catalog_number : Option String
  name : String
deriving DecidableEq, Repr

/-- `Video` — video associated with a master or release.  NOTE: in
`models.py` `duration : int`, `embed : bool` and `src : str` are required
(not optional). -/
structure Video where
  description : Option String
  duration : Int
  embed : Bool
  src : String
  title : Option String
deriving DecidableEq, Repr

/-- `MasterRelease` record. -/
structure MasterRelease where
  id : Int
  data_quality : Option String
  main_release : Option Int
  notes : Option String
  title : Option String
  year : Option Int
  artists : List CreditArtist
  genres : List String
  styles : List String
  videos : List Video
deriving DecidableEq, Repr

/-- `Release` record. -/
structure Release where
  id : Int
  country : Option String
  data_quality : Option String
  is_main_release : Option Bool
  master_id : Option Int
  notes : Option String
  released : Option String
  status : Option String
  title : Option String
  artists : List CreditArtist
  companies : List Company
  extra_artists : List ExtraArtist
  formats : List Format
  genres : List String
  identifiers : List Identifier
  labels : List ReleaseLabel
  series : List Series
  styles : List String
  tracklist : List Track
  videos : List Video
deriving DecidableEq, Repr

/-! ## Entity parsers (`src/dgkit/parsers.py`)

Python `ValueError`s become `Except.error`; evaluation order of the `do`
blocks follows Python's left-to-right keyword-argument evaluation. -/

/-- The message `_require_int` raises for a missing or empty field. -/
def requiredMsg (field : String) : String :=
  "Required field " ++ sq ++ field ++ sq ++ " is missing or empty"

/-- `_require_int`: convert string to int, raising `ValueError` if `None`
or empty. -/
def require_int (value : Option String) (field : String) : Except String Int :=
  if strTruthy value then pyInt (value.getD "")
  else Except.error (requiredMsg field)

/-- Loop body of `_parse_artist_refs` over `parent.findall("name")`. -/
def parse_artist_refs_go : List XmlElem → Except String (List ArtistRef)
  | [] => Except.ok []
  | ne :: rest =>
      if strTruthy (ne.get "id") && strTruthy ne.text then do
        let i ← pyInt ((ne.get "id").getD "")
        let refs ← parse_artist_refs_go rest
        Except.ok ({ id := i, name := ne.text.getD "" } :: refs)
      else parse_artist_refs_go rest

/-- `_parse_artist_refs`: artist references from a parent element. -/
def parse_artist_refs (parent : Option XmlElem) : Except String (List ArtistRef) :=
  match parent with
  | none => Except.ok []
  | some p => parse_artist_refs_go (p.findall "name")

/-- Loop body of `_parse_label_refs` over `parent.findall("label")`. -/
def parse_label_refs_go : List XmlElem → Except String (List LabelRef)
  | [] => Except.ok []
  | le :: rest =>
      if strTruthy (le.get "id") && strTruthy le.text then do
        let i ← pyInt ((le.get "id").getD "")
        let refs ← parse_label_refs_go rest
        Except.ok ({ id := i, name := le.text.getD "" } :: refs)
      else parse_label_refs_go rest

/-- `_parse_label_refs`: label references from a parent element. -/
def parse_label_refs (parent : Option XmlElem) : Except String (List LabelRef) :=
  match parent with
  | none => Except.ok []
  | some p => parse_label_refs_go (p.findall "label")

/-- Accumulator for the single-pass child scan in `_parse_credit_artists`. -/
structure CreditScan where
  artist_id : Option String
  name : Option String
  anv : Option String
  join : Option String

/-- The single-pass child scan of one `<artist>` credit element. -/
def creditScan : List XmlElem → CreditScan → CreditScan
  | [], s => s
  | c :: cs, s =>
      if c.tag = "id" then creditScan cs { s with artist_id := c.text }
      else if c.tag = "name" then creditScan cs { s with name := c.text }
      else if c.tag = "anv" then creditScan cs { s with anv := c.text }
      else if c.tag = "join" then creditScan cs { s with join := c.text }
      else creditScan cs s

/-- Loop body of `_parse_credit_artists` over the parent's children. -/
def parse_credit_artists_go : List XmlElem → Except String (List CreditArtist)
  | [] => Except.ok []
  | ae :: rest =>
      if ae.tag ≠ "artist" then parse_credit_artists_go rest
      else
        let s := creditScan ae.children ⟨none, none, none, none⟩
        if strTruthy s.artist_id && strTruthy s.name then do
          let i ← pyInt (s.artist_id.getD "")
          let arts ← parse_credit_artists_go rest
          Except.ok ({ id := i, artist_name_variation := s.anv, join := s.join,
                       name := s.name.getD "" } :: arts)
        else parse_credit_artists_go rest

/-- `_parse_credit_artists`: artist credits (id, name, anv, join). -/
def parse_credit_artists (parent : Option XmlElem) :
    Except String (List CreditArtist) :=
  match parent with
  | none => Except.ok []
  | some p => parse_credit_artists_go p.children

/-- Accumulator for the single-pass child scan in `_parse_extra_artists`. -/
structure ExtraScan where
  artist_id : Option Int
  name : Option String
  anv : Option String
  role : Option String
  tracks : Option String

/-- The single-pass child scan of one `<artist>` extra-credit element; the
`id` branch performs `int(child.text) if child.text else None`, which can
raise. -/
def extraScan : List XmlElem → ExtraScan → Except String ExtraScan
  | [], s => Except.ok s
  | c :: cs, s =>
      if c.tag = "id" then do
        let i ← pyIntOptional c.text
        extraScan cs { s with artist_id := i }
      else if c.tag = "name" then extraScan cs { s with name := c.text }
      else if c.tag = "anv" then extraScan cs { s with anv := c.text }
      else if c.tag = "role" then extraScan cs { s with role := c.text }
      else if c.tag = "tracks" then extraScan cs { s with tracks := c.text }
      else extraScan cs s

/-- Loop body of `_parse_extra_artists` over the parent's children. -/
def parse_extra_artists_go : List XmlElem → Except String (List ExtraArtist)
  | [] => Except.ok []
  | ae :: rest =>
      if ae.tag ≠ "artist" then parse_extra_artists_go rest
      else do
        let s ← extraScan ae.children ⟨none, none, none, none, none⟩
        if strTruthy s.name then do
          let arts ← parse_extra_artists_go rest
          Except.ok ({ id := s.artist_id, artist_name_variation := s.anv,
                       name := s.name.getD "", role := s.role,
                       tracks := s.tracks } :: arts)
        else parse_extra_artists_go rest

/-- `_parse_extra_artists`: extra artist credits (producer, engineer, …). -/
def parse_extra_artists (parent : Option XmlElem) :
    Except String (List ExtraArtist) :=
  match parent with
  | none => Except.ok []
  | some p => parse_extra_artists_go p.children

/-- Loop body of `_parse_release_labels` over `parent.findall("label")`. -/
def parse_release_labels_go : List XmlElem → Except String (List ReleaseLabel)
  | [] => Except.ok []
  | le :: rest =>
      if strTruthy (le.get "id") && strTruthy (le.get "name") then do
        let i ← pyInt ((le.get "id").getD "")
        let labels ← parse_release_labels_go rest
        Except.ok ({ id := i, catalog_number := le.get "catno",
                     name := (le.get "name").getD "" } :: labels)
      else parse_release_labels_go rest

/-- `_parse_release_labels`: label credits on a release. -/
def parse_release_labels (parent : Option XmlElem) :
    Except String (List ReleaseLabel) :=
  match parent with
  | none => Except.ok []
  | some p => parse_release_labels_go (p.findall "label")

/-- `[e.text for e in format_elem.find("descriptions").findall("description")
if e.text]`, empty when there is no `<descriptions>` child. -/
def descriptionsOf (fe : XmlElem) : List String :=
  match fe.find "descriptions" with
  | none => []
  | some p => textList (p.findall "description")

/-- Loop body of `_parse_formats` over `parent.findall("format")`.  NOTE the
`int(quantity_text)` conversion. -/
def parse_formats_go : List XmlElem → Except String (List Format)
  | [] => Except.ok []
  | fe :: rest =>
      if strTruthy (fe.get "name") && strTruthy (fe.get "qty") then do
        let q ← pyInt ((fe.get "qty").getD "")
        let fs ← parse_formats_go rest
        Except.ok ({ name := (fe.get "name").getD "", quantity := q,
                     text := fe.get "text", descriptions := descriptionsOf fe } :: fs)
      else parse_formats_go rest

/-- `_parse_formats`: format information of a release. -/
def parse_formats (parent : Option XmlElem) : Except String (List Format) :=
  match parent with
  | none => Except.ok []
  | some p => parse_formats_go (p.findall "format")

/-- Accumulator for the single-pass child scan in `_parse_sub_tracks` /
`_parse_tracks`. -/
structure TrackScan where
  position : Option String
  title : Option String
  duration : Option String
  artists : List CreditArtist
  extra_artists : List ExtraArtist
  sub_tracks : List SubTrack

/-- The single-pass child scan of one sub-`<track>` element. -/
def subTrackScan : List XmlElem → TrackScan → Except String TrackScan
  | [], s => Except.ok s
  | c :: cs, s =>
      if c.tag = "position" then subTrackScan cs { s with position := c.text }
      else if c.tag = "title" then subTrackScan cs { s with title := c.text }
      else if c.tag = "duration" then subTrackScan cs { s with duration := c.text }
      else if c.tag = "artists" then do
        let arts ← parse_credit_artists (some c)
        subTrackScan cs { s with artists := arts }
      else if c.tag = "extraartists" then do
        let arts ← parse_extra_artists (some c)
        subTrackScan cs { s with extra_artists := arts }
      else subTrackScan cs s

/-- Loop body of `_parse_sub_tracks` over the parent's children. -/
def parse_sub_tracks_go : List XmlElem → Except String (List SubTrack)
  | [] => Except.ok []
  | te :: rest =>
      if te.tag ≠ "track" then parse_sub_tracks_go rest
      else do
        let s ← subTrackScan te.children ⟨none, none, none, [], [], []⟩
        let subs ← parse_sub_tracks_go rest
        Except.ok ({ duration := s.duration, position := s.position,
                     title := s.title, artists := s.artists,
                     extra_artists := s.extra_artists } :: subs)

/-- `_parse_sub_tracks`: sub-tracks within a track. -/
def parse_sub_tracks (parent : Option XmlElem) : Except String (List SubTrack) :=
  match parent with
  | none => Except.ok []
  | some p => parse_sub_tracks_go p.children

/-- The single-pass child scan of one `<track>` element. -/
def trackScan : List XmlElem → TrackScan → Except String TrackScan
  | [], s => Except.ok s
  | c :: cs, s =>
      if c.tag = "position" then trackScan cs { s with position := c.text }
      else if c.tag = "title" then trackScan cs { s with title := c.text }
      else if c.tag = "duration" then trackScan cs { s with duration := c.text }
      else if c.tag = "artists" then do
        let arts ← parse_credit_artists (some c)
        trackScan cs { s with artists := arts }
      else if c.tag = "extraartists" then do
        let arts ← parse_extra_artists (some c)
        trackScan cs { s with extra_artists := arts }
      else if c.tag = "sub_tracks" then do
        let subs ← parse_sub_tracks (some c)
        trackScan cs { s with sub_tracks := subs }
      else trackScan cs s

/-- Loop body of `_parse_tracks` over the parent's children. -/
def parse_tracks_go : List XmlElem → Except String (List Track)
  | [] => Except.ok []
  | te :: rest =>
      if te.tag ≠ "track" then parse_tracks_go rest
      else do
        let s ← trackScan te.children ⟨none, none, none, [], [], []⟩
        let tracks ← parse_tracks_go rest
        Except.ok ({ duration := s.duration, position := s.position,
                     title := s.title, artists := s.artists,
                     extra_artists := s.extra_artists,
                     sub_tracks := s.sub_tracks } :: tracks)

/-- `_parse_tracks`: the tracklist. -/
def parse_tracks (parent : Option XmlElem) : Except String (List Track) :=
  match parent with
  | none => Except.ok []
  | some p => parse_tracks_go p.children

/-- Loop body of `_parse_identifiers` over `parent.findall("identifier")`. -/
def parse_identifiers_go : List XmlElem → List Identifier
  | [] => []
  | ie :: rest =>
      if strTruthy (ie.get "type") && strTruthy (ie.get "value") then
        { description := ie.get "description", type := (ie.get "type").getD "",
          value := (ie.get "value").getD "" } :: parse_identifiers_go rest
      else parse_identifiers_go rest

/-- `_parse_identifiers`: identifiers (barcode, matrix, etc.). -/
def parse_identifiers (parent : Option XmlElem) : List Identifier :=
  match parent with
  | none => []
  | some p => parse_identifiers_go (p.findall "identifier")

/-- Accumulator for the single-pass child scan in `_parse_companies`. -/
structure CompanyScan where
  company_id : Option String
  name : Option String
  catalog_number : Option String
  entity_type : Option Int
  entity_type_name : Option String

/-- The single-pass child scan of one `<company>` element; the
`entity_type` branch performs `int(child.text) if child.text else None`. -/
def companyScan : List XmlElem → CompanyScan → Except String CompanyScan
  | [], s => Except.ok s
  | c :: cs, s =>
      if c.tag = "id" then companyScan cs { s with company_id := c.text }
      else if c.tag = "name" then companyScan cs { s with name := c.text }
      else if c.tag = "catno" then companyScan cs { s with catalog_number := c.text }
      else if c.tag = "entity_type" then do
        let i ← pyIntOptional c.text
        companyScan cs { s with entity_type := i }
      else if c.tag = "entity_type_name" then
        companyScan cs { s with entity_type_name := c.text }
      else companyScan cs s

/-- Loop body of `_parse_companies` over the parent's children. -/
def parse_companies_go : List XmlElem → Except String (List Company)
  | [] => Except.ok []
  | ce :: rest =>
      if ce.tag ≠ "company" then parse_companies_go rest
      else do
        let s ← companyScan ce.children ⟨none, none, none, none, none⟩
        if strTruthy s.company_id && strTruthy s.name then do
          let i ← pyInt (s.company_id.getD "")
          let cos ← parse_companies_go rest
          Except.ok ({ id := i, catalog_number := s.catalog_number,
                       entity_type := s.entity_type,
                       entity_type_name := s.entity_type_name,
                       name := s.name.getD "" } :: cos)
        else parse_companies_go rest

/-- `_parse_companies`: company credits. -/
def parse_companies (parent : Option XmlElem) : Except String (List Company) :=
  match parent with
  | none => Except.ok []
  | some p => parse_companies_go p.children

/-- Loop body of `_parse_series` over `parent.findall("series")`. -/
def parse_series_go : List XmlElem → Except String (List Series)
  | [] => Except.ok []
  | se :: rest =>
      if strTruthy (se.get "id") && strTruthy (se.get "name") then do
        let i ← pyInt ((se.get "id").getD "")
        let ss ← parse_series_go rest
        Except.ok ({ id := i, catalog_number := se.get "catno",
                     name := (se.get "name").getD "" } :: ss)
      else parse_series_go rest

/-- `_parse_series`: series information. -/
def parse_series (parent : Option XmlElem) : Except String (List Series) :=
  match parent with
  | none => Except.ok []
  | some p => parse_series_go (p.findall "series")

/-- The inner child scan of one `<video>` element collecting the
`description` and `title` texts. -/
def videoScan : List XmlElem → Option String × Option String →
    Option String × Option String
  | [], acc => acc
  | c :: cs, (d, t) =>
      if c.tag = "description" then videoScan cs (c.text, t)
      else if c.tag = "title" then videoScan cs (d, c.text)
      else videoScan cs (d, t)

/-- Loop body of `_parse_videos` over the parent's children.  NOTE the
`if src and duration:` guard — a `<video>` lacking either attribute is
skipped — and `embed == "true"` producing a plain `Bool`. -/
def parse_videos_go : List XmlElem → Except String (List Video)
  | [] => Except.ok []
  | ve :: rest =>
      if ve.tag ≠ "video" then parse_videos_go rest
      else
        if strTruthy (ve.get "src") && strTruthy (ve.get "duration") then do
          let scan := videoScan ve.children (none, none)
          let d ← pyInt ((ve.get "duration").getD "")
          let vids ← parse_videos_go rest
          Except.ok ({ description := scan.1, duration := d,
                       embed := ve.get "embed" == some "true",
                       src := (ve.get "src").getD "", title := scan.2 } :: vids)
        else parse_videos_go rest

/-- `_parse_videos`: videos of a master or release. -/
def parse_videos (parent : Option XmlElem) : Except String (List Video) :=
  match parent with
  | none => Except.ok []
  | some p => parse_videos_go p.children

/-- Specification-side characterization of one loop iteration of
`_parse_videos`: the record a single child element contributes when the
whole parse succeeds.  `none` for a non-`<video>` tag or a missing/empty
`src` or `duration` attribute (the child is skipped), and `none` is also
the only consistent value when `int(duration)` would fail — in that case
the surrounding parse raises and produces no records at all. -/
def videoRecordOfChild (ve : XmlElem) : Option Video :=
  if ve.tag = "video" then
    if strTruthy (ve.get "src") && strTruthy (ve.get "duration") then
      (strToInt? ((ve.get "duration").getD "")).map (fun d =>
        { description := (videoScan ve.children (none, none)).1,
          duration := d,
          embed := ve.get "embed" == some "true",
          src := (ve.get "src").getD "",
          title := (videoScan ve.children (none, none)).2 })
    else none
  else none

/-- `_parse_genres`: the genres list. -/
def parse_genres (parent : Option XmlElem) : List String :=
  match parent with
  | none => []
  | some p => textList (p.findall "genre")

/-- `_parse_styles`: the styles list. -/
def parse_styles (parent : Option XmlElem) : List String :=
  match parent with
  | none => []
  | some p => textList (p.findall "style")

/-- `ArtistParser.parse`: artist XML element into an `Artist` record; the
required `id` (`_require_int(elem.findtext("id"))`) is evaluated first. -/
def ArtistParse (elem : XmlElem) : Except String Artist := do
  let i ← require_int (elem.findtextOpt "id") "id"
  let aliases ← parse_artist_refs (elem.find "aliases")
  let groups ← parse_artist_refs (elem.find "groups")
  let members ← parse_artist_refs (elem.find "members")
  Except.ok
    { id := i, data_quality := elem.findtextOpt "data_quality",
      name := elem.findtextOpt "name", profile := elem.findtextOpt "profile",
      real_name := elem.findtextOpt "realname", aliases := aliases,
      groups := groups, members := members,
      name_variations :=
        (elem.find "namevariations").elim [] (fun p => textList (p.findall "name")),
      urls := (elem.find "urls").elim [] (fun p => textList (p.findall "url")) }

/-- The `parentLabel` block at the top of `LabelParser.parse`: a
`LabelRef` when the `<parentLabel>` child has a truthy id attribute and
text, `None` otherwise. -/
def parseParentLabel (elem : XmlElem) : Except String (Option LabelRef) :=
  match elem.find "parentLabel" with
  | none => Except.ok none
  | some ple =>
      if strTruthy (ple.get "id") && strTruthy ple.text then do
        let i ← pyInt ((ple.get "id").getD "")
        Except.ok (some { id := i, name := ple.text.getD "" })
      else Except.ok none

/-- `LabelParser.parse`: label XML element into a `Label` record.  The
`parentLabel` block runs before the record is built; the required id is
`_require_int(elem.get("id") or elem.findtext("id"))`. -/
def LabelParse (elem : XmlElem) : Except String Label := do
  let parent_label ← parseParentLabel elem
  let i ← require_int (pyOrStr (elem.get "id") (elem.findtextOpt "id")) "id"
  let sub_labels ← parse_label_refs (elem.find "sublabels")
  Except.ok
    { id := i, contact_info := elem.findtextOpt "contactinfo",
      data_quality := elem.findtextOpt "data_quality",
      name := pyOrStr (elem.findtextOpt "name") elem.text,
      profile := elem.findtextOpt "profile", parent_label := parent_label,
      sub_labels := sub_labels,
      urls := (elem.find "urls").elim [] (fun p => textList (p.findall "url")) }

/-- `MasterReleaseParser.parse`: master XML element into a `MasterRelease`.
`year` and `main_release` are converted before the required id
(`_require_int(elem.get("id"))`) is checked, as in the source. -/
def MasterReleaseParse (elem : XmlElem) : Except String MasterRelease := do
  let year ← pyIntOptional (elem.findtextOpt "year")
  let main_release ← pyIntOptional (elem.findtextOpt "main_release")
  let i ← require_int (elem.get "id") "id"
  let artists ← parse_credit_artists (elem.find "artists")
  let videos ← parse_videos (elem.find "videos")
  Except.ok
    { id := i, data_quality := elem.findtextOpt "data_quality",
      main_release := main_release, notes := elem.findtextOpt "notes",
      title := elem.findtextOpt "title", year := year, artists := artists,
      genres := parse_genres (elem.find "genres"),
      styles := parse_styles (elem.find "styles"), videos := videos }

/-- Accumulator for `ReleaseParser.parse`'s single iteration over children. -/
structure ReleaseScan where
  country : Option String
  data_quality : Option String
  master_id : Option Int
  is_main_release : Option Bool
  notes : Option String
  released : Option String
  title : Option String
  artists : List CreditArtist
  companies : List Company
  extra_artists : List ExtraArtist
  formats : List Format
  genres : List String
  identifiers : List Identifier
  labels : List ReleaseLabel
  series : List Series
  styles : List String
  tracklist : List Track
  videos : List Video

/-- The initial (all-empty) `ReleaseScan`. -/
def initReleaseScan : ReleaseScan :=
  { country := none, data_quality := none, master_id := none,
    is_main_release := none, notes := none, released := none, title := none,
    artists := [], companies := [], extra_artists := [], formats := [],
    genres := [], identifiers := [], labels := [], series := [], styles := [],
    tracklist := [], videos := [] }

/-- The single iteration over a `<release>`'s children. -/
def releaseScan : List XmlElem → ReleaseScan → Except String ReleaseScan
  | [], s => Except.ok s
  | c :: cs, s =>
      if c.tag = "country" then releaseScan cs { s with country := c.text }
      else if c.tag = "data_quality" then
        releaseScan cs { s with data_quality := c.text }
      else if c.tag = "master_id" then
        if strTruthy c.text then do
          let m ← pyInt (c.text.getD "")
          let ima := c.get "is_main_release"
          let imr := if strTruthy ima then some (ima == some "true") else none
          releaseScan cs { s with master_id := some m, is_main_release := imr }
        else releaseScan cs s
      else if c.tag = "notes" then releaseScan cs { s with notes := c.text }
      else if c.tag = "released" then releaseScan cs { s with released := c.text }
      else if c.tag = "title" then releaseScan cs { s with title := c.text }
      else if c.tag = "artists" then do
        let arts ← parse_credit_artists (some c)
        releaseScan cs { s with artists := arts }
      else if c.tag = "companies" then do
        let cos ← parse_companies (some c)
        releaseScan cs { s with companies := cos }
      else if c.tag = "extraartists" then do
        let arts ← parse_extra_artists (some c)
        releaseScan cs { s with extra_artists := arts }
      else if c.tag = "formats" then do
        let fs ← parse_formats (some c)
        releaseScan cs { s with formats := fs }
      else if c.tag = "genres" then
        releaseScan cs { s with genres := parse_genres (some c) }
      else if c.tag = "identifiers" then
        releaseScan cs { s with identifiers := parse_identifiers (some c) }
      else if c.tag = "labels" then do
        let ls ← parse_release_labels (some c)
        releaseScan cs { s with labels := ls }
      else if c.tag = "series" then do
        let ss ← parse_series (some c)
        releaseScan cs { s with series := ss }
      else if c.tag = "styles" then
        releaseScan cs { s with styles := parse_styles (some c) }
      else if c.tag = "tracklist" then do
        let ts ← parse_tracks (some c)
        releaseScan cs { s with tracklist := ts }
      else if c.tag = "videos" then do
        let vs ← parse_videos (some c)
        releaseScan cs { s with videos := vs }
      else releaseScan cs s

/-- `ReleaseParser.parse`: release XML element into a `Release` record; the
required id (`_require_int(elem.get("id"))`) is evaluated first. -/
def ReleaseParse (elem : XmlElem) : Except String Release := do
  let release_id ← require_int (elem.get "id") "id"
  let s ← releaseScan elem.children initReleaseScan
  Except.ok
    { id := release_id, country := s.country, data_quality := s.data_quality,
      is_main_release := s.is_main_release, master_id := s.master_id,
      notes := s.notes, released := s.released, status := elem.get "status",
      title := s.title, artists := s.artists, companies := s.companies,
      extra_artists := s.extra_artists, formats := s.formats,
      genres := s.genres, identifiers := s.identifiers, labels := s.labels,
      series := s.series, styles := s.styles, tracklist := s.tracklist,
      videos := s.videos }

/-- `list(ArtistParser().parse(elem))` — each parser yields exactly one
record; a `ValueError` raised during iteration propagates. -/
def ArtistParseRecords (elem : XmlElem) : Except String (List Artist) :=
  (ArtistParse elem).map (fun a => [a])

/-- `list(LabelParser().parse(elem))`. -/
def LabelParseRecords (elem : XmlElem) : Except String (List Label) :=
  (LabelParse elem).map (fun a => [a])

/-- `list(MasterReleaseParser().parse(elem))`. -/
def MasterReleaseParseRecords (elem : XmlElem) :
    Except String (List MasterRelease) :=
  (MasterReleaseParse elem).map (fun a => [a])

/-- `list(ReleaseParser().parse(elem))`. -/
def ReleaseParseRecords (elem : XmlElem) : Except String (List Release) :=
  (ReleaseParse elem).map (fun a => [a])

/-! ## Filter engine (`src/dgkit/filters.py`)

Filter-expression values are `null`, booleans, numbers and strings; the
non-float value universe of the grammar is modelled by `Value` (floats are
outside the claims).  Records seen by `_get_field_value` are modelled as
association lists of top-level fields, a missing field reading as `None`,
exactly what `_compare` receives. -/

inductive Value : Type where
  | vnull
  | vbool (b : Bool)
  | vint (n : Int)
  | vstr (s : String)
deriving DecidableEq, Repr

/-- Python `str()` of a filter value (used by `_compare`'s coercion). -/
def pyStr : Value → String
  | .vnull => "None"
  | .vbool true => "True"
  | .vbool false => "False"
  | .vint n => toString n
  | .vstr s => s

/-- Numeric view: Python treats `bool` as `int` in comparisons. -/
def valueToNum : Value → Option Int
  | .vint n => some n
  | .vbool b => some (if b then 1 else 0)
  | _ => none

/-- Python `==` on filter values (numeric across int/bool, strings by
equality, cross-kind equality is `False`). -/
def pyEq (a b : Value) : Bool :=
  match valueToNum a, valueToNum b with
  | some x, some y => x = y
  | _, _ =>
      match a, b with
      | .vstr s, .vstr t => s = t
      | .vnull, .vnull => true
      | _, _ => false

/-- Python ordering on filter values; `none` models the `TypeError` raised
on unordered kinds (caught by `_compare` and turned into `False`). -/
def pyCmp (a b : Value) : Option Ordering :=
  match valueToNum a, valueToNum b with
  | some x, some y => some (compare x y)
  | _, _ =>
      match a, b with
      | .vstr s, .vstr t => some (compare s t)
      | _, _ => none

/-- Whether a value is a Python `str`. -/
def Value.isStr : Value → Bool
  | .vstr _ => true
  | _ => false

/-- `_compare(field_value, op, target_value)` from `filters.py`: `None`
handling first, then string coercion, then the operator dispatch with
`TypeError` caught as `False`. -/
def pyCompare (field_value : Value) (op : String) (target_value : Value) : Bool :=
  if field_value = .vnull ∧ target_value = .vnull then
    op = "==" ∨ op = ">=" ∨ op = "<="
  else if field_value = .vnull ∨ target_value = .vnull then
    op = "!="
  else
    let fv := if target_value.isStr && !field_value.isStr
      then Value.vstr (pyStr field_value) else field_value
    if op = "==" then pyEq fv target_value
    else if op = "!=" then !(pyEq fv target_value)
    else if op = ">" then (pyCmp fv target_value).elim false (fun o => o = .gt)
    else if op = ">=" then (pyCmp fv target_value).elim false (fun o => o ≠ .lt)
    else if op = "<" then (pyCmp fv target_value).elim false (fun o => o = .lt)
    else if op = "<=" then (pyCmp fv target_value).elim false (fun o => o ≠ .gt)
    else false

/-- A record as the expression filter sees it: named top-level fields. -/
def FilterRec : Type := List (String × Value)

/-- `_get_field_value` for a top-level field: the field's value, or `None`
when the record has no such field. -/
def getFieldValue (record : FilterRec) (field : String) : Value :=
  (alistGet record field).getD Value.vnull

/-- The parsed filter expression AST: comparisons, and the `("AND", terms)` /
`("OR", terms)` tuples produced by the `infix_notation` parse actions. -/
inductive Expr : Type where
  | cmp (field : String) (op : String) (value : Value)
  | andE (terms : List Expr)
  | orE (terms : List Expr)

mutual

/-- `_evaluate`: recursively evaluate a parsed expression against a record. -/
def evaluate : Expr → FilterRec → Bool
  | .cmp field op value, r => pyCompare (getFieldValue r field) op value
  | .andE terms, r => evalAll terms r
  | .orE terms, r => evalAny terms r

/-- `all(results)` over AND terms. -/
def evalAll : List Expr → FilterRec → Bool
  | [], _ => true
  | t :: ts, r => evaluate t r && evalAll ts r

/-- `any(results)` over OR terms. -/
def evalAny : List Expr → FilterRec → Bool
  | [], _ => false
  | t :: ts, r => evaluate t r || evalAny ts r

end

/-- `ExpressionFilter.__call__`: drop (return `None`) when the expression
evaluates true, else pass the record through. -/
def expressionFilter (parsed : Expr) (record : FilterRec) : Option FilterRec :=
  if evaluate parsed record then none else some record

/-- `FilterChain.__call__`: apply filters in order, short-circuiting on the
first that drops the record, threading the possibly-replaced record. -/
def filterChainRun {α : Type} : List (α → Option α) → α → Option α
  | [], record => some record
  | f :: fs, record =>
      match f record with
      | none => none
      | some result => filterChainRun fs result

/-! ## Summary collector (`src/dgkit/summary.py`) -/

/-- The counter state of a `SummaryCollector` (the monotonic clock is not
modelled). -/
structure SummaryState where
  records_read : Nat
  records_dropped : Nat
  records_modified : Nat
  records_written : Nat
  records_unhandled : Nat
  warnings : List String
deriving DecidableEq, Repr

/-- A freshly entered `SummaryCollector`. -/
def initSummary : SummaryState :=
  { records_read := 0, records_dropped := 0, records_modified := 0,
    records_written := 0, records_unhandled := 0, warnings := [] }

/-- `SummaryCollector.record_read`. -/
def record_read (s : SummaryState) : SummaryState :=
  { s with records_read := s.records_read + 1 }

/-- `SummaryCollector.record_dropped`. -/
def record_dropped (s : SummaryState) : SummaryState :=
  { s with records_dropped := s.records_dropped + 1 }

/-- `SummaryCollector.record_modified`. -/
def record_modified (s : SummaryState) : SummaryState :=
  { s with records_modified := s.records_modified + 1 }

/-- `SummaryCollector.record_written`. -/
def record_written (s : SummaryState) : SummaryState :=
  { s with records_written := s.records_written + 1 }

/-- `SummaryCollector.record_unhandled`: one counter bump plus one warning. -/
def record_unhandled (message : String) (s : SummaryState) : SummaryState :=
  { s with records_unhandled := s.records_unhandled + 1,
           warnings := s.warnings ++ [message] }

/-! ## Pipeline driver (`src/dgkit/pipeline.py`, `execute`)

The driver is modelled with the summary collector active (the claims all
concern runs with one).  The writer is modelled as the list of records it
received.  Progress callbacks have no effect on any modelled state and are
omitted.  `unaccessedOf` abstracts `TrackingElement.get_unaccessed()` of
the per-element wrapper consulted in strict mode. -/

/-- `elem.findtext("id") or elem.get("id") or "?"` — the best-effort
element identifier used for warning messages. -/
def elementId (elem : XmlElem) : String :=
  (pyOrStr (pyOrStr (elem.findtextOpt "id") (elem.get "id")) (some "?")).getD "?"

/-- The driver's per-record body: count the read, apply the filter (drop,
or count a modification when the filter returned a different record), then
write and count the write. -/
def processRecord {α : Type} [DecidableEq α] (filter : Option (α → Option α))
    (st : SummaryState × List α) (record : α) : SummaryState × List α :=
  let s := record_read st.1
  match filter with
  | none => (record_written s, st.2 ++ [record])
  | some f =>
      match f record with
      | none => (record_dropped s, st.2)
      | some filtered =>
          let s := if filtered ≠ record then record_modified s else s
          (record_written s, st.2 ++ [filtered])

/-- Insertion sort by `≤`, modelling Python `sorted` on strings. -/
def sortedInsert (x : String) : List String → List String
  | [] => [x]
  | y :: ys => if x ≤ y then x :: y :: ys else y :: sortedInsert x ys

/-- Python `sorted` on a list of strings. -/
def pySorted : List String → List String
  | [] => []
  | x :: xs => sortedInsert x (pySorted xs)

/-- `", ".join(sorted(paths))`. -/
def joinSorted (paths : List String) : String :=
  String.intercalate ", " (pySorted paths)

/-- The driver's per-element body: parse, on `ValueError` either re-raise
(`fail_on_unhandled`) or record one unhandled warning and continue; on
success process each record, then run the strict-mode unaccessed check. -/
def processElement {α : Type} [DecidableEq α] (tag : String)
    (parse : XmlElem → Except String (List α)) (fail_on_unhandled strict : Bool)
    (unaccessedOf : XmlElem → List String) (filter : Option (α → Option α))
    (st : SummaryState × List α) (elem : XmlElem) :
    Except String (SummaryState × List α) :=
  match parse elem with
  | .error e =>
      if fail_on_unhandled then Except.error e
      else
        Except.ok
          (record_unhandled
            ("Parse error in " ++ tag ++ " id=" ++ elementId elem ++ ": " ++ e)
            st.1, st.2)
  | .ok records =>
      let st := records.foldl (processRecord filter) st
      if strict then
        let unaccessed := unaccessedOf elem
        if unaccessed ≠ [] then
          if fail_on_unhandled then
            Except.error
              ("Unhandled in " ++ tag ++ " id=" ++ elementId elem ++ ": " ++
                joinSorted unaccessed)
          else
            Except.ok
              (record_unhandled
                ("Unhandled in " ++ tag ++ " id=" ++ elementId elem ++ ": " ++
                  joinSorted unaccessed) st.1, st.2)
        else Except.ok st
      else Except.ok st

/-- `execute`'s element loop over the extracted elements of one input. -/
def executeLoop {α : Type} [DecidableEq α] (tag : String)
    (parse : XmlElem → Except String (List α)) (fail_on_unhandled strict : Bool)
    (unaccessedOf : XmlElem → List String) (filter : Option (α → Option α)) :
    List XmlElem → SummaryState × List α → Except String (SummaryState × List α)
  | [], st => Except.ok st
  | elem :: rest, st =>
      match processElement tag parse fail_on_unhandled strict unaccessedOf
          filter st elem with
      | .error e => Except.error e
      | .ok st' =>
          executeLoop tag parse fail_on_unhandled strict unaccessedOf filter
            rest st'

/-! ## Tracking element view (`src/dgkit/validation.py`)

`Tracking` mirrors `TrackingElement`'s mutable state: the wrapped element,
path, accessed tag/attribute sets, the accessed-text flag, and the
`_children` map from tag to the list of wrappers created for that tag.
Each accessor is a function from the wrapper state to the returned value
plus the updated state. -/

inductive Tracking : Type where
  | mk (elem : XmlElem) (path : String) (accessedTags accessedAttrs : List String)
      (accessedText : Bool) (childrenMap : List (String × List Tracking))

/-- The wrapped element. -/
def Tracking.elem : Tracking → XmlElem
  | .mk e _ _ _ _ _ => e

/-- The wrapper's path. -/
def Tracking.path : Tracking → String
  | .mk _ p _ _ _ _ => p

/-- The set of accessed child tags. -/
def Tracking.accessedTags : Tracking → List String
  | .mk _ _ t _ _ _ => t

/-- The set of accessed attributes. -/
def Tracking.accessedAttrs : Tracking → List String
  | .mk _ _ _ a _ _ => a

/-- Whether `text` was accessed. -/
def Tracking.accessedText : Tracking → Bool
  | .mk _ _ _ _ b _ => b

/-- The `_children` map: wrappers created so far, per tag. -/
def Tracking.childrenMap : Tracking → List (String × List Tracking)
  | .mk _ _ _ _ _ m => m

/-- `TrackingElement.__init__`: a fresh wrapper with empty tracking state. -/
def newTracking (elem : XmlElem) (path : String) : Tracking :=
  .mk elem path [] [] false []

/-- Replace the accessed-tags set. -/
def Tracking.withTags (t : Tracking) (tags : List String) : Tracking :=
  .mk t.elem t.path tags t.accessedAttrs t.accessedText t.childrenMap

/-- Replace the `_children` map. -/
def Tracking.withChildrenMap (t : Tracking)
    (m : List (String × List Tracking)) : Tracking :=
  .mk t.elem t.path t.accessedTags t.accessedAttrs t.accessedText m

/-- `TrackingElement.find(tag)`: record the tag access; when the underlying
child exists and the tag has no cached wrappers yet, cache a single fresh
wrapper; return the first cached wrapper. -/
def Tracking.findOp (t : Tracking) (tag : String) : Option Tracking × Tracking :=
  let t := t.withTags (setAdd t.accessedTags tag)
  match t.elem.find tag with
  | none => (none, t)
  | some child =>
      let t := match alistGet t.childrenMap tag with
        | some _ => t
        | none =>
            t.withChildrenMap
              (alistSet t.childrenMap tag
                [newTracking child (t.path ++ "/" ++ tag)])
      (((alistGet t.childrenMap tag).getD []).head?, t)

/-- `TrackingElement.findall(tag)`: record the tag access; when the tag has
no cached wrappers, wrap every matching child; return the cached list. -/
def Tracking.findallOp (t : Tracking) (tag : String) :
    List Tracking × Tracking :=
  let t := t.withTags (setAdd t.accessedTags tag)
  let t := match alistGet t.childrenMap tag with
    | some _ => t
    | none =>
        t.withChildrenMap
          (alistSet t.childrenMap tag
            ((t.elem.findall tag).map
              (fun child => newTracking child (t.path ++ "/" ++ tag))))
  (((alistGet t.childrenMap tag).getD []), t)

/-- One step of `TrackingElement.__iter__`'s loop body for a child: record
the tag, ensure the tag's cache slot exists, then unconditionally append a
fresh wrapper for the child. -/
def Tracking.iterStep (t : Tracking) (child : XmlElem) : Tracking :=
  let tag := child.tag
  let t := t.withTags (setAdd t.accessedTags tag)
  t.withChildrenMap
    (alistSet t.childrenMap tag
      (((alistGet t.childrenMap tag).getD []) ++
        [newTracking child (t.path ++ "/" ++ tag)]))

/-- A full pass of `for child in wrapper: …` over all children (the state
effect of `TrackingElement.__iter__` run to exhaustion). -/
def Tracking.iterAll (t : Tracking) : Tracking :=
  t.elem.children.foldl Tracking.iterStep t

/-- How many wrappers the `_children` map holds for a tag — the number of
times children with that tag have been wrapped. -/
def Tracking.wrapCount (t : Tracking) (tag : String) : Nat :=
  ((alistGet t.childrenMap tag).getD []).length

/-! ## Writers (`src/dgkit/writers.py`) -/

/-- Python `str.lower()` (ASCII), as applied to record type names. -/
def pyLower (s : String) : String :=
  String.mk (s.data.map Char.toLower)

/-- `_singularize`: trailing `ies` becomes `y`, else trailing `es` is
removed, else trailing `s` is removed, else unchanged. -/
def singularize (name : String) : String :=
  let cs := name.data
  if ("ies".data).isSuffixOf cs then
    String.mk (cs.take (cs.length - 3) ++ ['y'])
  else if ("es".data).isSuffixOf cs then String.mk (cs.take (cs.length - 2))
  else if ("s".data).isSuffixOf cs then String.mk (cs.take (cs.length - 1))
  else name

inductive PyVal : Type where
  | vnone
  | vbool (b : Bool)
  | vint (n : Int)
  | vstr (s : String)
  | vlist (vs : List PyVal)
  | vobj (fields : List (String × PyVal))

/-- Python truthiness of a field value (`if values:`). -/
def pyTruthy : PyVal → Bool
  | .vnone => false
  | .vbool b => b
  | .vint n => n ≠ 0
  | .vstr s => s ≠ ""
  | .vlist vs => !vs.isEmpty
  | .vobj _ => true

/-- `json.dumps` string escaping for the characters the claims can meet
(backslash and double quote). -/
def jsonEscape (s : String) : String :=
  String.mk (s.data.foldr
    (fun c acc =>
      if c = '\\' then '\\' :: '\\' :: acc
      else if c = '"' then '\\' :: '"' :: acc
      else c :: acc) [])

mutual

/-- `json.dumps` of a Python value; dataclass instances encode as their
`asdict` objects. -/
def jsonVal : PyVal → String
  | .vnone => "null"
  | .vbool true => "true"
  | .vbool false => "false"
  | .vint n => toString n
  | .vstr s => "\"" ++ jsonEscape s ++ "\""
  | .vlist vs => "[" ++ jsonSeq vs ++ "]"
  | .vobj fs => "\x7b" ++ jsonFields fs ++ "\x7d"

/-- Comma-joined JSON encodings of list elements. -/
def jsonSeq : List PyVal → String
  | [] => ""
  | [v] => jsonVal v
  | v :: rest => jsonVal v ++ ", " ++ jsonSeq rest

/-- Comma-joined JSON encodings of object entries. -/
def jsonFields : List (String × PyVal) → String
  | [] => ""
  | [(k, v)] => "\"" ++ jsonEscape k ++ "\": " ++ jsonVal v
  | (k, v) :: rest =>
      "\"" ++ jsonEscape k ++ "\": " ++ jsonVal v ++ ", " ++ jsonFields rest

end

/-- The element type of a `list[...]` annotation, as the junction logic
classifies it: `int`, `str`, an actual dataclass, or anything else.
`eDataclass` requires `dataclasses.is_dataclass(elem_type)`; the nested
reference types in `models.py` (`ArtistRef`, `LabelRef`, …) are
`NamedTuple`s, for which `is_dataclass` is `False`, so they classify as
`eOther` — never as `eDataclass`. -/
inductive ElemAnn : Type where
  | eInt
  | eStr
  | eDataclass
  | eOther
deriving DecidableEq, Repr

/-- A field's type annotation as seen by `_get_list_element_type`:
a `list[elem]` or a non-list type. -/
inductive FieldAnn : Type where
  | listOf (e : ElemAnn)
  | nonList
deriving DecidableEq, Repr

/-- A record instance as the relational sink consumes it.  `isDataclass`
models `hasattr(record, "__dataclass_fields__")`, the check behind
`dataclasses.fields`; it is `False` for every `NamedTuple` record type in
`models.py`. -/
structure SqlRecord where
  typeName : String
  fields : List (String × PyVal)
  annotations : List (String × FieldAnn)
  isDataclass : Bool

/-- The message of the `TypeError` that `dataclasses.fields` raises when
its argument is not a dataclass. -/
def typeErrorMsg : String :=
  "fields() should be called with a dataclass type or instance"

/-- `_get_field_names(record)` = `[f.name for f in dataclasses.fields(record)]`:
the field names in declaration order for a dataclass, a `TypeError` for
anything else — in particular for every `NamedTuple` record of `models.py`. -/
def get_field_names (record : SqlRecord) : Except String (List String) :=
  if record.isDataclass then Except.ok (record.fields.map Prod.fst)
  else Except.error typeErrorMsg

/-- `_dataclass_to_row(item)` with `serialize_lists=True`: field values in
order, lists JSON-encoded. -/
def dataclassToRow : PyVal → List PyVal
  | .vobj fs =>
      fs.map (fun p =>
        match p.2 with
        | .vlist vs => PyVal.vstr (jsonVal (.vlist vs))
        | v => v)
  | v => [v]

/-- The mutable state of a `SqliteWriter` after `__enter__`. -/
structure SqliteWriterState where
  batch_size : Nat
  tables : List String
  buffers : List (String × List (List PyVal))
  db : List (String × List (List PyVal))
  junction_tables : List ((String × String) × (String × ElemAnn))
  junction_fields : List (String × List String)

/-- A freshly opened `SqliteWriter` with the given batch size. -/
def initSqliteState (batch_size : Nat) : SqliteWriterState :=
  { batch_size := batch_size, tables := [], buffers := [], db := [],
    junction_tables := [], junction_fields := [] }

/-- The junction-field scan of `_ensure_table`: list-typed fields whose
element type is `int`, `str` or a dataclass and which the canned schema
does not claim as a main-table column, each with its junction-table name
`<table>_<singular(field)>` and element type. -/
def computeJunctionFields (table_name : String) (schema_columns : List String) :
    List (String × FieldAnn) → List (String × (String × ElemAnn))
  | [] => []
  | (field, ann) :: rest =>
      let tail := computeJunctionFields table_name schema_columns rest
      match ann with
      | .listOf e =>
          if (e = .eInt ∨ e = .eStr ∨ e = .eDataclass) ∧
              (schema_columns = [] ∨ field ∉ schema_columns) then
            (field, (table_name ++ "_" ++ singularize field, e)) :: tail
          else tail
      | .nonList => tail

/-- `self._tables.add(name); self._buffers[name] = []` — registering a
created table. -/
def registerTable (st : SqliteWriterState) (name : String) : SqliteWriterState :=
  { st with tables := setAdd st.tables name,
            buffers := alistSet st.buffers name [] }

/-- `_ensure_table`: on first sight of a record type, derive its junction
fields from the annotations, then register the main table and the junction
tables with fresh buffers.  When no canned DDL exists (`canned = none`),
the dynamic-schema fallback runs `_get_field_names(record)` first — which
raises `TypeError` for non-dataclass records — before any table is
registered. -/
def ensureTable (canned : Option (List String)) (st : SqliteWriterState)
    (record : SqlRecord) : Except String (String × SqliteWriterState) :=
  let table_name := pyLower record.typeName
  if table_name ∈ st.tables then Except.ok (table_name, st)
  else
    let schema_columns := canned.getD []
    let jf := computeJunctionFields table_name schema_columns record.annotations
    let st :=
      { st with
        junction_tables :=
          st.junction_tables ++ jf.map (fun p => ((table_name, p.1), p.2)),
        junction_fields :=
          st.junction_fields ++ [(table_name, jf.map (fun p => p.1))] }
    match canned with
    | some _ =>
        Except.ok (table_name,
          jf.foldl (fun st p => registerTable st p.2.1)
            (registerTable st table_name))
    | none => do
        let _ ← get_field_names record
        Except.ok (table_name,
          jf.foldl (fun st p => registerTable st p.2.1)
            (registerTable st table_name))

/-- Append one row to a table's buffer. -/
def bufferAppend (st : SqliteWriterState) (table : String) (row : List PyVal) :
    SqliteWriterState :=
  { st with buffers :=
      alistSet st.buffers table (((alistGet st.buffers table).getD []) ++ [row]) }

/-- `_flush(table)`: move the buffered rows into the database. -/
def flushTable (st : SqliteWriterState) (table : String) : SqliteWriterState :=
  let buffer := (alistGet st.buffers table).getD []
  if buffer.isEmpty then st
  else
    { st with
      db := alistSet st.db table (((alistGet st.db table).getD []) ++ buffer),
      buffers := alistSet st.buffers table [] }

/-- `if len(buffer) >= batch_size: flush`. -/
def maybeFlush (st : SqliteWriterState) (table : String) : SqliteWriterState :=
  if ((alistGet st.buffers table).getD []).length ≥ st.batch_size then
    flushTable st table
  else st

/-- The main-table value of one field in `SqliteWriter.write`: lists and
dataclass instances are JSON-encoded, everything else passes through. -/
def mainValue : PyVal → PyVal
  | .vlist vs => .vstr (jsonVal (.vlist vs))
  | .vobj fs => .vstr (jsonVal (.vobj fs))
  | v => v

/-- The main-table row: field values in order, junction fields skipped. -/
def buildMainValues (junction_fields : List String) :
    List (String × PyVal) → List PyVal
  | [] => []
  | (name, value) :: rest =>
      if name ∈ junction_fields then buildMainValues junction_fields rest
      else mainValue value :: buildMainValues junction_fields rest

/-- The junction-table insert loop for one junction field: one row per
element (`(record_id, item)` for scalar elements, `record_id` plus the
flattened fields for dataclass elements), then the batch check. -/
def junctionStep (record : SqlRecord) (record_id : PyVal) (table_name : String)
    (st : SqliteWriterState) (field : String) : SqliteWriterState :=
  match alistGet st.junction_tables (table_name, field) with
  | none => st
  | some (junction_table, elemAnn) =>
      let values := (alistGet record.fields field).getD PyVal.vnone
      if pyTruthy values then
        match values with
        | .vlist vs =>
            let st := vs.foldl
              (fun st item =>
                if elemAnn = .eInt ∨ elemAnn = .eStr then
                  bufferAppend st junction_table [record_id, item]
                else if elemAnn = .eDataclass then
                  bufferAppend st junction_table (record_id :: dataclassToRow item)
                else st) st
            maybeFlush st junction_table
        | _ => st
      else st

/-- `SqliteWriter.write(record)`: ensure the table, read the record's
field names via `_get_field_names` — the call that raises `TypeError` for
the `NamedTuple` records of `models.py`, aborting the write with zero rows
stored — then buffer the main-table row (batch-flushing) and one junction
row per element of each junction field (batch-flushing per table). -/
def sqliteWrite (canned : Option (List String)) (st : SqliteWriterState)
    (record : SqlRecord) : Except String SqliteWriterState := do
  let p ← ensureTable canned st record
  let table_name := p.1
  let st := p.2
  let junction_fields := (alistGet st.junction_fields table_name).getD []
  let field_names ← get_field_names record
  let record_id :=
    (field_names.head?.bind (fun nm => alistGet record.fields nm)).getD PyVal.vnone
  let main_values := buildMainValues junction_fields record.fields
  let st := bufferAppend st table_name main_values
  let st := maybeFlush st table_name
  Except.ok (junction_fields.foldl (junctionStep record record_id table_name) st)

/-- All rows a table has received: already flushed plus still buffered. -/
def totalRows (st : SqliteWriterState) (table : String) : Nat :=
  ((alistGet st.db table).getD []).length +
    ((alistGet st.buffers table).getD []).length

/-- The `Artist` record of `models.py` as `SqliteWriter.write` receives it
from the pipeline: a `NamedTuple`, hence `isDataclass := false`, with the
nested reference lists (`aliases`, `groups`, `members`) holding
`ArtistRef` `NamedTuple`s — also not dataclasses, so their element type
classifies as `eOther` — and the plain string lists `name_variations` and
`urls` classifying as `eStr`. -/
def artistRecord : SqlRecord :=
  { typeName := "Artist",
    fields :=
      [("id", .vint 1), ("data_quality", .vstr "Correct"),
       ("name", .vstr "Test Artist"), ("profile", .vnone),
       ("real_name", .vnone),
       ("aliases", .vlist [.vobj [("id", .vint 100), ("name", .vstr "B")]]),
       ("groups", .vlist []), ("members", .vlist []),
       ("name_variations", .vlist [.vstr "T.A."]),
       ("urls", .vlist [.vstr "http://a.com", .vstr "http://b.com"])],
    annotations :=
      [("id", .nonList), ("data_quality", .nonList), ("name", .nonList),
       ("profile", .nonList), ("real_name", .nonList),
       ("aliases", .listOf .eOther), ("groups", .listOf .eOther),
       ("members", .listOf .eOther),
       ("name_variations", .listOf .eStr), ("urls", .listOf .eStr)],
    isDataclass := false }

/-! ## Helper lemmas -/

theorem alistGet_alistSet_self {κ α : Type} [DecidableEq κ]
    (m : List (κ × α)) (k : κ) (v : α) : alistGet (alistSet m k v) k = some v := by
  induction m with
  | nil => simp [alistSet, alistGet]
  | cons hd tl ih =>
      obtain ⟨k0, v0⟩ := hd
      by_cases h : k0 = k
      · subst h
        simp [alistSet, alistGet]
      · simp [alistSet, alistGet, h, ih]

theorem alistGet_alistSet_ne {κ α : Type} [DecidableEq κ]
    (m : List (κ × α)) (k k' : κ) (v : α) (h : k ≠ k') :
    alistGet (alistSet m k v) k' = alistGet m k' := by
  induction m with
  | nil => simp [alistSet, alistGet, h]
  | cons hd tl ih =>
      obtain ⟨k0, v0⟩ := hd
      by_cases h0 : k0 = k
      · subst h0
        simp [alistSet, alistGet, h]
      · simp [alistSet, alistGet, h0, ih]

theorem alistGet_mem {κ α : Type} [DecidableEq κ]
    (m : List (κ × α)) (k : κ) (v : α) (h : alistGet m k = some v) : (k, v) ∈ m := by
  induction m with
  | nil => simp [alistGet] at h
  | cons hd tl ih =>
      obtain ⟨k0, v0⟩ := hd
      by_cases h0 : k0 = k
      · subst h0
        simp [alistGet] at h
        subst h
        exact List.mem_cons_self _ _
      · simp [alistGet, h0] at h
        exact List.mem_cons_of_mem _ (ih h)

theorem except_bind_error {ε α β : Type} (e : ε) (f : α → Except ε β) :
    (Except.error e >>= f) = Except.error e := rfl

theorem except_bind_ok {ε α β : Type} (a : α) (f : α → Except ε β) :
    (Except.ok a >>= f : Except ε β) = f a := rfl

/-! ## Claim theorems -/

/-- C8: for all filters `a`, `b`, `c` and every record `r`, the filter
chain `chain([a, chain([b, c])])` applied to `r` yields the same result
(surviving record or drop decision) as `chain([a, b, c])`, including the
short-circuit on the first dropping filter. -/
theorem filter_chain_assoc {α : Type} (a b c : α → Option α) (r : α) :
    filterChainRun [a, filterChainRun [b, c]] r = filterChainRun [a, b, c] r := by
  simp only [filterChainRun]
  cases a r with
  | none => rfl
  | some r1 =>
      simp only [filterChainRun]
      cases b r1 with
      | none => rfl
      | some r2 =>
          simp only [filterChainRun]
          cases c r2 with
          | none => rfl
          | some r3 => rfl

/-- C10: in `_compare`, when both sides are `None` the ordering operators
`>=` and `<=` evaluate true while `>` and `<` evaluate false, so an
expression filter such as `x >= null` drops every record in which `x` is
absent. -/
theorem null_null_ordering :
    pyCompare .vnull ">=" .vnull = true ∧
    pyCompare .vnull "<=" .vnull = true ∧
    pyCompare .vnull ">" .vnull = false ∧
    pyCompare .vnull "<" .vnull = false ∧
    (∀ r : FilterRec, getFieldValue r "x" = .vnull →
      expressionFilter (.cmp "x" ">=" .vnull) r = none) := by
  refine ⟨by decide, by decide, by decide, by decide, ?_⟩
  intro r h
  simp [expressionFilter, evaluate, h]
  decide

/-- Witness for C10 at a concrete record lacking field `x`. -/
theorem null_null_ordering_witness :
    expressionFilter (.cmp "x" ">=" .vnull) [("y", Value.vint 2)] = none :=
  null_null_ordering.2.2.2.2 [("y", Value.vint 2)] (by decide)

/-- C4: `x == null` evaluates true exactly when the field value is absent
(`None`); `x != null` exactly when it is present; and every ordering
comparison between an absent field and a non-null literal, or between a
present field and a null literal, evaluates false, so the expression filter
keeps the record. -/
theorem null_comparison_semantics :
    (∀ (r : FilterRec) (x : String),
      (evaluate (.cmp x "==" .vnull) r = true ↔ getFieldValue r x = .vnull)) ∧
    (∀ (r : FilterRec) (x : String),
      (evaluate (.cmp x "!=" .vnull) r = true ↔ getFieldValue r x ≠ .vnull)) ∧
    (∀ (r : FilterRec) (x : String) (op : String) (v : Value),
      (op = ">" ∨ op = ">=" ∨ op = "<" ∨ op = "<=") →
      ((getFieldValue r x = .vnull ∧ v ≠ .vnull) ∨
        (getFieldValue r x ≠ .vnull ∧ v = .vnull)) →
      evaluate (.cmp x op v) r = false ∧
        expressionFilter (.cmp x op v) r = some r) := by
  refine ⟨?_, ?_, ?_⟩
  · intro r x
    by_cases h : getFieldValue r x = .vnull <;> simp [evaluate, pyCompare, h]
  · intro r x
    by_cases h : getFieldValue r x = .vnull <;> simp [evaluate, pyCompare, h]
  · intro r x op v hop hcase
    have hfalse : evaluate (.cmp x op v) r = false := by
      rcases hcase with ⟨h1, h2⟩ | ⟨h1, h2⟩
      · rcases hop with h | h | h | h <;> subst h <;>
          simp [evaluate, pyCompare, h1, h2]
      · rcases hop with h | h | h | h <;> subst h <;>
          simp [evaluate, pyCompare, h1, h2]
    exact ⟨hfalse, by simp [expressionFilter, hfalse]⟩

/-- Witness for C4: absent `x` vs the integer literal `3` under `<=` keeps
the record, and `x == null` matches the absent field. -/
theorem null_comparison_semantics_witness :
    (evaluate (.cmp "x" "==" .vnull) [("y", Value.vint 1)] = true ↔
      getFieldValue [("y", Value.vint 1)] "x" = .vnull) ∧
    (evaluate (.cmp "x" "<=" (.vint 3)) [("y", Value.vint 1)] = false ∧
      expressionFilter (.cmp "x" "<=" (.vint 3)) [("y", Value.vint 1)] =
        some [("y", Value.vint 1)]) :=
  ⟨null_comparison_semantics.1 [("y", Value.vint 1)] "x",
   null_comparison_semantics.2.2 [("y", Value.vint 1)] "x" "<=" (.vint 3)
     (by simp) (Or.inl ⟨by decide, by decide⟩)⟩

/-- C1 (code evaluation): the parser converts the `qty` attribute with
`int()` — `models.Format.quantity` is an `int`, not a string — so a source
value `"03"` becomes the integer `3`, whose serialized form `"3"` does not
reproduce the source value: `Format.quantity` does not round-trip as a
string. -/
theorem format_quantity_is_int :
    parse_formats (some (.mk "formats" [] none
        [.mk "format" [("name", "Vinyl"), ("qty", "03")] none []])) =
      .ok [{ name := "Vinyl", quantity := 3, text := none, descriptions := [] }] ∧
    jsonVal (.vint 3) = "3" ∧ ("3" : String) ≠ "03" := by
  refine ⟨by decide, by decide, by decide⟩

/-- C9 (counterexample): a `<videos>` container with exactly one `<video>`
child that lacks the `src` attribute parses to no `Video` record at all —
the child is skipped, not materialized with `src` absent. -/
theorem video_without_src_is_skipped :
    (XmlElem.mk "videos" [] none
        [.mk "video" [("duration", "100")] none
          [.mk "title" [] (some "T") []]]).children.length = 1 ∧
    parse_videos (some (.mk "videos" [] none
        [.mk "video" [("duration", "100")] none
          [.mk "title" [] (some "T") []]])) = .ok [] := by
  refine ⟨by decide, by decide⟩

/-- Auxiliary for C9: `videoScan` leaves `description` and `title` at
`None` when no such child elements exist. -/
theorem videoScan_none_of_absent (cs : List XmlElem)
    (h : ∀ c ∈ cs, c.tag ≠ "description" ∧ c.tag ≠ "title") :
    videoScan cs (none, none) = (none, none) := by
  induction cs with
  | nil => rfl
  | cons c cs ih =>
      have hc := h c (List.mem_cons_self c cs)
      have hrest : ∀ x ∈ cs, x.tag ≠ "description" ∧ x.tag ≠ "title" :=
        fun x hx => h x (List.mem_cons_of_mem c hx)
      simp [videoScan, hc.1, hc.2, ih hrest]

/-- Auxiliary for C9: a successful `pyInt` determines `strToInt?`. -/
theorem pyInt_ok_strToInt (s : String) (n : Int)
    (h : pyInt s = Except.ok n) : strToInt? s = some n := by
  cases hs : strToInt? s with
  | none => simp [pyInt, hs] at h
  | some m =>
      simp [pyInt, hs] at h
      simp [h]

/-- Auxiliary for C9: a successful run of the `_parse_videos` child loop
returns exactly the per-child records, in document order. -/
theorem parse_videos_go_ok (cs : List XmlElem) (result : List Video)
    (h : parse_videos_go cs = Except.ok result) :
    result = cs.filterMap videoRecordOfChild := by
  induction cs generalizing result with
  | nil =>
      simp [parse_videos_go] at h
      simp [h]
  | cons ve rest ih =>
      by_cases htag : ve.tag = "video"
      · by_cases hguard :
            (strTruthy (ve.get "src") && strTruthy (ve.get "duration")) = true
        · cases hint : pyInt ((ve.get "duration").getD "") with
          | error e =>
              rw [show parse_videos_go (ve :: rest) =
                    Except.error e from by
                  simp [parse_videos_go, htag, hguard, hint, except_bind_error]]
                at h
              exact absurd h (by simp)
          | ok d =>
              cases hrest : parse_videos_go rest with
              | error e =>
                  rw [show parse_videos_go (ve :: rest) =
                        Except.error e from by
                      simp [parse_videos_go, htag, hguard, hint, hrest,
                        except_bind_ok, except_bind_error]]
                    at h
                  exact absurd h (by simp)
              | ok vids =>
                  have hv : videoRecordOfChild ve = some
                      { description := (videoScan ve.children (none, none)).1,
                        duration := d,
                        embed := ve.get "embed" == some "true",
                        src := (ve.get "src").getD "",
                        title := (videoScan ve.children (none, none)).2 } := by
                    simp [videoRecordOfChild, htag, hguard,
                      pyInt_ok_strToInt _ _ hint]
                  rw [show parse_videos_go (ve :: rest) =
                        Except.ok ({ description :=
                                       (videoScan ve.children (none, none)).1,
                                     duration := d,
                                     embed := ve.get "embed" == some "true",
                                     src := (ve.get "src").getD "",
                                     title :=
                                       (videoScan ve.children (none, none)).2 }
                            :: vids) from by
                      simp [parse_videos_go, htag, hguard, hint, hrest,
                        except_bind_ok]]
                    at h
                  have hr : result = { description :=
                                         (videoScan ve.children (none, none)).1,
                                       duration := d,
                                       embed := ve.get "embed" == some "true",
                                       src := (ve.get "src").getD "",
                                       title :=
                                         (videoScan ve.children (none, none)).2
                                     } :: vids :=
                    (Except.ok.inj h).symm
                  rw [hr, List.filterMap_cons, hv, ih vids hrest]
        · have hnone : videoRecordOfChild ve = none := by
            simp [videoRecordOfChild, htag, hguard]
          have hskip : parse_videos_go (ve :: rest) = parse_videos_go rest := by
            simp [parse_videos_go, htag, hguard]
          rw [hskip] at h
          rw [List.filterMap_cons, hnone]
          exact ih result h
      · have hnone : videoRecordOfChild ve = none := by
          simp [videoRecordOfChild, htag]
        have hskip : parse_videos_go (ve :: rest) = parse_videos_go rest := by
          simp [parse_videos_go, htag]
        rw [hskip] at h
        rw [List.filterMap_cons, hnone]
        exact ih result h

/-- C9 (amended): when `_parse_videos` succeeds on a container element it
returns exactly one `Video` record per `<video>` child carrying non-empty
`src` and `duration` attributes, in document order: `description` and
`title` are the optional scanned child texts (`None` when absent),
`duration` is `int(duration)`, `embed` is the boolean `embed == "true"`
(false, not absent, when the attribute is missing), and `src` is the
attribute value; a child with another tag or lacking `src` or `duration`
contributes no record; and a sibling `<video>` whose non-empty `duration`
is not a valid integer aborts the whole parse with `ValueError`, so even
valid siblings then yield no records. -/
theorem video_parse_amended :
    (∀ (tag : String) (attrs : List (String × String)) (txt : Option String)
        (cs : List XmlElem) (result : List Video),
      parse_videos (some (.mk tag attrs txt cs)) = Except.ok result →
      result = cs.filterMap videoRecordOfChild) ∧
    (∀ (ve : XmlElem) (n : Int),
      ve.tag = "video" →
      strTruthy (ve.get "src") = true →
      strTruthy (ve.get "duration") = true →
      pyInt ((ve.get "duration").getD "") = Except.ok n →
      videoRecordOfChild ve =
        some { description := (videoScan ve.children (none, none)).1,
               duration := n,
               embed := ve.get "embed" == some "true",
               src := (ve.get "src").getD "",
               title := (videoScan ve.children (none, none)).2 }) ∧
    (∀ ve : XmlElem,
      ve.tag ≠ "video" ∨ strTruthy (ve.get "src") = false ∨
        strTruthy (ve.get "duration") = false →
      videoRecordOfChild ve = none) ∧
    parse_videos (some (.mk "videos" [] none
        [.mk "video" [("src", "u"), ("duration", "300")] none [],
         .mk "video" [("src", "v"), ("duration", "4:45")] none []])) =
      Except.error
        ("invalid literal for int() with base 10: " ++ sq ++ "4:45" ++ sq) := by
  refine ⟨?_, ?_, ?_, by decide⟩
  · intro tag attrs txt cs result h
    exact parse_videos_go_ok cs result h
  · intro ve n htag hsrc hdur hint
    simp [videoRecordOfChild, htag, hsrc, hdur, pyInt_ok_strToInt _ _ hint]
  · intro ve hmiss
    rcases hmiss with h | h | h <;> simp [videoRecordOfChild, h]

/-- Witness for C9's amended theorem: a container holding one fully
attributed `<video>` and one lacking `src` parses to exactly the one
record the per-child map predicts; the fully attributed child maps to its
record and the `src`-less child to none. -/
theorem video_parse_amended_witness :
    ([XmlElem.mk "video" [("src", "u"), ("duration", "325"), ("embed", "true")]
        none [.mk "title" [] (some "Test Video") []],
      XmlElem.mk "video" [("duration", "100")] none []].filterMap
        videoRecordOfChild =
      [{ description := none, duration := 325, embed := true, src := "u",
         title := some "Test Video" }]) ∧
    videoRecordOfChild (XmlElem.mk "video"
        [("src", "u"), ("duration", "325"), ("embed", "true")] none
        [.mk "title" [] (some "Test Video") []]) =
      some { description := none, duration := 325, embed := true, src := "u",
             title := some "Test Video" } ∧
    videoRecordOfChild (XmlElem.mk "video" [("duration", "100")] none []) =
      none ∧
    parse_videos (some (.mk "videos" [] none
        [.mk "video" [("src", "u"), ("duration", "325"), ("embed", "true")] none
          [.mk "title" [] (some "Test Video") []],
         .mk "video" [("duration", "100")] none []])) =
      Except.ok [{ description := none, duration := 325, embed := true,
                   src := "u", title := some "Test Video" }] := by
  have h1 := video_parse_amended.1 "videos" [] none
    [.mk "video" [("src", "u"), ("duration", "325"), ("embed", "true")] none
      [.mk "title" [] (some "Test Video") []],
     .mk "video" [("duration", "100")] none []]
    [{ description := none, duration := 325, embed := true, src := "u",
       title := some "Test Video" }] (by decide)
  have h2 := video_parse_amended.2.1
    (.mk "video" [("src", "u"), ("duration", "325"), ("embed", "true")] none
      [.mk "title" [] (some "Test Video") []]) 325
    (by decide) (by decide) (by decide) (by decide)
  have h3 := video_parse_amended.2.2.1
    (.mk "video" [("duration", "100")] none []) (Or.inr (Or.inl (by decide)))
  exact ⟨h1.symm, by simpa [videoScan] using h2, h3, by decide⟩

/-! ### Tracking-element claims (C2) -/

theorem setAdd_idem (l : List String) (x : String) :
    setAdd (setAdd l x) x = setAdd l x := by
  by_cases h : x ∈ l
  · simp [setAdd, h]
  · simp [setAdd, h]

/-- C2 (counterexample): a wrapper over an element with a single `<id>`
child, iterated twice (two full `for child in wrapper` passes), holds two
wrappers for that one child — `__iter__` appends a fresh wrapper on every
pass instead of returning the memoized one. -/
theorem tracking_iter_wraps_child_twice :
    (XmlElem.mk "artist" [] none [.mk "id" [] (some "1") []]).children.length = 1 ∧
    ((newTracking (.mk "artist" [] none [.mk "id" [] (some "1") []])
        "").iterAll.iterAll).wrapCount "id" = 2 := by
  refine ⟨by decide, by decide⟩

theorem wrapCount_iterStep (t : Tracking) (c : XmlElem) (tag : String) :
    (t.iterStep c).wrapCount tag =
      t.wrapCount tag + (if c.tag = tag then 1 else 0) := by
  obtain ⟨e, p, atags, aattrs, atext, m⟩ := t
  by_cases h : c.tag = tag
  · simp [Tracking.iterStep, Tracking.wrapCount, Tracking.childrenMap,
      Tracking.withTags, Tracking.withChildrenMap, Tracking.accessedTags,
      Tracking.path, Tracking.elem, h, alistGet_alistSet_self]
  · simp [Tracking.iterStep, Tracking.wrapCount, Tracking.childrenMap,
      Tracking.withTags, Tracking.withChildrenMap, Tracking.accessedTags,
      Tracking.path, Tracking.elem, h, alistGet_alistSet_ne _ _ _ _ h]

theorem wrapCount_foldl (cs : List XmlElem) (t : Tracking) (tag : String) :
    (cs.foldl Tracking.iterStep t).wrapCount tag =
      t.wrapCount tag + (cs.filter (fun c => c.tag = tag)).length := by
  induction cs generalizing t with
  | nil => simp
  | cons c cs ih =>
      by_cases h : c.tag = tag
      · simp [List.foldl, ih, wrapCount_iterStep, h, List.filter]
        omega
      · simp [List.foldl, ih, wrapCount_iterStep, h, List.filter]

/-- C2 (amended): children reached through `find` and `findall` are
memoized — a repeated call returns the same wrappers and leaves the
tracking state unchanged — but each full iteration pass wraps every child
anew, appending one additional wrapper per child with the iterated tag, so
a child reached by `k` iteration passes is wrapped `k` times, not once. -/
theorem tracking_memoization_amended :
    (∀ (t : Tracking) (tag : String),
      ((t.findallOp tag).2.findallOp tag).1 = (t.findallOp tag).1 ∧
      ((t.findallOp tag).2.findallOp tag).2 = (t.findallOp tag).2) ∧
    (∀ (t : Tracking) (tag : String),
      ((t.findOp tag).2.findOp tag).1 = (t.findOp tag).1 ∧
      ((t.findOp tag).2.findOp tag).2 = (t.findOp tag).2) ∧
    (∀ (t : Tracking) (tag : String),
      t.iterAll.wrapCount tag =
        t.wrapCount tag + (t.elem.children.filter (fun c => c.tag = tag)).length) := by
  refine ⟨?_, ?_, ?_⟩
  · intro t tag
    obtain ⟨e, p, atags, aattrs, atext, m⟩ := t
    cases hm : alistGet m tag with
    | some l =>
        constructor <;>
          simp [Tracking.findallOp, Tracking.withTags, Tracking.withChildrenMap,
            Tracking.elem, Tracking.path, Tracking.accessedTags,
            Tracking.accessedAttrs, Tracking.accessedText, Tracking.childrenMap,
            hm, setAdd_idem]
    | none =>
        constructor <;>
          simp [Tracking.findallOp, Tracking.withTags, Tracking.withChildrenMap,
            Tracking.elem, Tracking.path, Tracking.accessedTags,
            Tracking.accessedAttrs, Tracking.accessedText, Tracking.childrenMap,
            hm, setAdd_idem, alistGet_alistSet_self]
  · intro t tag
    obtain ⟨e, p, atags, aattrs, atext, m⟩ := t
    cases hf : XmlElem.find e tag with
    | none =>
        constructor <;>
          simp [Tracking.findOp, Tracking.withTags, Tracking.withChildrenMap,
            Tracking.elem, Tracking.path, Tracking.accessedTags,
            Tracking.accessedAttrs, Tracking.accessedText, Tracking.childrenMap,
            hf, setAdd_idem]
    | some child =>
        cases hm : alistGet m tag with
        | some l =>
            constructor <;>
              simp [Tracking.findOp, Tracking.withTags, Tracking.withChildrenMap,
                Tracking.elem, Tracking.path, Tracking.accessedTags,
                Tracking.accessedAttrs, Tracking.accessedText,
                Tracking.childrenMap, hf, hm, setAdd_idem]
        | none =>
            constructor <;>
              simp [Tracking.findOp, Tracking.withTags, Tracking.withChildrenMap,
                Tracking.elem, Tracking.path, Tracking.accessedTags,
                Tracking.accessedAttrs, Tracking.accessedText,
                Tracking.childrenMap, hf, hm, setAdd_idem, alistGet_alistSet_self]
  · intro t tag
    exact wrapCount_foldl t.elem.children t tag

/-! ### SQLite DSN claims (C7) -/

theorem processRecord_counter {α : Type} [DecidableEq α]
    (filter : Option (α → Option α)) (st : SummaryState × List α) (r : α)
    (h : st.1.records_read = st.1.records_dropped + st.1.records_written) :
    (processRecord filter st r).1.records_read =
      (processRecord filter st r).1.records_dropped +
        (processRecord filter st r).1.records_written := by
  cases filter with
  | none =>
      simp [processRecord, record_read, record_written]
      omega
  | some f =>
      cases hf : f r with
      | none =>
          simp [processRecord, hf, record_read, record_dropped]
          omega
      | some filtered =>
          by_cases hmod : filtered ≠ r <;>
            simp [processRecord, hf, record_read, record_written,
              record_modified, hmod] <;> omega

theorem foldl_processRecord_counter {α : Type} [DecidableEq α]
    (filter : Option (α → Option α)) (records : List α)
    (st : SummaryState × List α)
    (h : st.1.records_read = st.1.records_dropped + st.1.records_written) :
    (records.foldl (processRecord filter) st).1.records_read =
      (records.foldl (processRecord filter) st).1.records_dropped +
        (records.foldl (processRecord filter) st).1.records_written := by
  induction records generalizing st with
  | nil => simpa using h
  | cons r rs ih =>
      exact ih (processRecord filter st r) (processRecord_counter filter st r h)

theorem processElement_counter {α : Type} [DecidableEq α] (tag : String)
    (parse : XmlElem → Except String (List α)) (fail strict : Bool)
    (un : XmlElem → List String) (filter : Option (α → Option α))
    (st st' : SummaryState × List α) (elem : XmlElem)
    (hstep : processElement tag parse fail strict un filter st elem = .ok st')
    (h : st.1.records_read = st.1.records_dropped + st.1.records_written) :
    st'.1.records_read = st'.1.records_dropped + st'.1.records_written := by
  unfold processElement at hstep
  cases hp : parse elem with
  | error e =>
      rw [hp] at hstep
      by_cases hfail : fail
      · simp [hfail] at hstep
      · simp [hfail] at hstep
        rw [← hstep]
        simpa [record_unhandled] using h
  | ok records =>
      rw [hp] at hstep
      have hfold := foldl_processRecord_counter filter records st h
      by_cases hstrict : strict
      · simp only [hstrict, if_true] at hstep
        by_cases hun : un elem ≠ []
        · by_cases hfail : fail
          · simp [hun, hfail] at hstep
          · simp [hun, hfail] at hstep
            rw [← hstep]
            simpa [record_unhandled] using hfold
        · simp [hun] at hstep
          rw [← hstep]
          exact hfold
      · simp only [hstrict, if_false] at hstep
        injection hstep with hstep
        rw [← hstep]
        exact hfold

theorem executeLoop_counter {α : Type} [DecidableEq α] (tag : String)
    (parse : XmlElem → Except String (List α)) (fail strict : Bool)
    (un : XmlElem → List String) (filter : Option (α → Option α))
    (elems : List XmlElem) (st st' : SummaryState × List α)
    (hrun : executeLoop tag parse fail strict un filter elems st = .ok st')
    (h : st.1.records_read = st.1.records_dropped + st.1.records_written) :
    st'.1.records_read = st'.1.records_dropped + st'.1.records_written := by
  induction elems generalizing st with
  | nil =>
      simp [executeLoop] at hrun
      rw [← hrun]
      exact h
  | cons elem rest ih =>
      unfold executeLoop at hrun
      cases hstep : processElement tag parse fail strict un filter st elem with
      | error e => rw [hstep] at hrun; simp at hrun
      | ok stm =>
          rw [hstep] at hrun
          simp at hrun
          exact ih stm hrun
            (processElement_counter tag parse fail strict un filter st stm elem
              hstep h)

/-- C3: for every completed pipeline run with a summary collector active,
the final counters satisfy `records_read = records_dropped +
records_written`; and when a filter transforms a record (returns a
different one), the driver counts exactly one `modified` event together
with the read and the write — never a drop — so the equality is never
perturbed. -/
theorem pipeline_counter_invariant :
    (∀ (α : Type) [DecidableEq α] (tag : String)
        (parse : XmlElem → Except String (List α)) (fail strict : Bool)
        (un : XmlElem → List String) (filter : Option (α → Option α))
        (elems : List XmlElem) (st' : SummaryState × List α),
      executeLoop tag parse fail strict un filter elems (initSummary, []) = .ok st' →
      st'.1.records_read = st'.1.records_dropped + st'.1.records_written) ∧
    (∀ (α : Type) [DecidableEq α] (f : α → Option α) (st : SummaryState × List α)
        (r r2 : α), f r = some r2 → r2 ≠ r →
      processRecord (some f) st r =
        (record_written (record_modified (record_read st.1)), st.2 ++ [r2])) := by
  constructor
  · intro α inst tag parse fail strict un filter elems st' hrun
    exact executeLoop_counter tag parse fail strict un filter elems _ st' hrun
      (by simp [initSummary])
  · intro α inst f st r r2 hf hne
    simp [processRecord, hf, hne]

/-- Witness for C3: a two-record element where the filter drops one record
and transforms the other; the final counters are read 2 = dropped 1 +
written 1, with modified 1. -/
theorem pipeline_counter_invariant_witness :
    (({ records_read := 2, records_dropped := 1, records_modified := 1,
        records_written := 1, records_unhandled := 0,
        warnings := [] } : SummaryState), ([3] : List Int)).1.records_read =
      (({ records_read := 2, records_dropped := 1, records_modified := 1,
          records_written := 1, records_unhandled := 0,
          warnings := [] } : SummaryState), ([3] : List Int)).1.records_dropped +
      (({ records_read := 2, records_dropped := 1, records_modified := 1,
          records_written := 1, records_unhandled := 0,
          warnings := [] } : SummaryState), ([3] : List Int)).1.records_written ∧
    processRecord (some (fun n : Int => if n = 1 then none else some (n + 1)))
        (initSummary, []) 2 =
      (record_written (record_modified (record_read initSummary)), [3]) := by
  constructor
  · exact pipeline_counter_invariant.1 Int "artist"
      (fun _ => .ok [(1 : Int), 2]) false false (fun _ => [])
      (some (fun n : Int => if n = 1 then none else some (n + 1)))
      [.mk "artist" [] none []] _ (by decide)
  · exact pipeline_counter_invariant.2 Int
      (fun n : Int => if n = 1 then none else some (n + 1))
      (initSummary, []) 2 3 (by decide) (by decide)

/-! ### Required-id policy claims (C6) -/

theorem executeLoop_parse_error {α : Type} [DecidableEq α] (tag : String)
    (parse : XmlElem → Except String (List α)) (strict : Bool)
    (un : XmlElem → List String) (filter : Option (α → Option α))
    (elem : XmlElem) (rest : List XmlElem) (st : SummaryState × List α)
    (e : String) (h : parse elem = .error e) :
    executeLoop tag parse false strict un filter (elem :: rest) st =
      executeLoop tag parse false strict un filter rest
        (record_unhandled
          ("Parse error in " ++ tag ++ " id=" ++ elementId elem ++ ": " ++ e)
          st.1, st.2) ∧
    executeLoop tag parse true strict un filter (elem :: rest) st =
      .error e := by
  constructor <;> simp [executeLoop, processElement, h]

/-- C6: for every artist, label, master or release element whose required
id is missing or empty, the parser raises a parse error; the driver
catches it, records exactly one unhandled warning carrying the entity kind
and a best-effort identifier, and continues with the next element — unless
`fail_on_unhandled` is set, in which case the error propagates and aborts
the run. -/
theorem required_id_policy :
    (∀ (elem : XmlElem) (rest : List XmlElem) (st : SummaryState × List Artist)
        (strict : Bool) (un : XmlElem → List String)
        (filter : Option (Artist → Option Artist)),
      strTruthy (elem.findtextOpt "id") = false →
      ∃ e, ArtistParseRecords elem = .error e ∧
        executeLoop "artist" ArtistParseRecords false strict un filter (elem :: rest) st =
          executeLoop "artist" ArtistParseRecords false strict un filter rest
            (record_unhandled
              ("Parse error in artist id=" ++ elementId elem ++ ": " ++ e)
              st.1, st.2) ∧
        executeLoop "artist" ArtistParseRecords true strict un filter (elem :: rest) st =
          .error e) ∧
    (∀ (elem : XmlElem) (rest : List XmlElem) (st : SummaryState × List Label)
        (strict : Bool) (un : XmlElem → List String)
        (filter : Option (Label → Option Label)),
      strTruthy (pyOrStr (elem.get "id") (elem.findtextOpt "id")) = false →
      ∃ e, LabelParseRecords elem = .error e ∧
        executeLoop "label" LabelParseRecords false strict un filter (elem :: rest) st =
          executeLoop "label" LabelParseRecords false strict un filter rest
            (record_unhandled
              ("Parse error in label id=" ++ elementId elem ++ ": " ++ e)
              st.1, st.2) ∧
        executeLoop "label" LabelParseRecords true strict un filter (elem :: rest) st =
          .error e) ∧
    (∀ (elem : XmlElem) (rest : List XmlElem)
        (st : SummaryState × List MasterRelease) (strict : Bool)
        (un : XmlElem → List String)
        (filter : Option (MasterRelease → Option MasterRelease)),
      strTruthy (elem.get "id") = false →
      ∃ e, MasterReleaseParseRecords elem = .error e ∧
        executeLoop "master" MasterReleaseParseRecords false strict un filter
            (elem :: rest) st =
          executeLoop "master" MasterReleaseParseRecords false strict un filter rest
            (record_unhandled
              ("Parse error in master id=" ++ elementId elem ++ ": " ++ e)
              st.1, st.2) ∧
        executeLoop "master" MasterReleaseParseRecords true strict un filter
            (elem :: rest) st = .error e) ∧
    (∀ (elem : XmlElem) (rest : List XmlElem) (st : SummaryState × List Release)
        (strict : Bool) (un : XmlElem → List String)
        (filter : Option (Release → Option Release)),
      strTruthy (elem.get "id") = false →
      ∃ e, ReleaseParseRecords elem = .error e ∧
        executeLoop "release" ReleaseParseRecords false strict un filter
            (elem :: rest) st =
          executeLoop "release" ReleaseParseRecords false strict un filter rest
            (record_unhandled
              ("Parse error in release id=" ++ elementId elem ++ ": " ++ e)
              st.1, st.2) ∧
        executeLoop "release" ReleaseParseRecords true strict un filter
            (elem :: rest) st = .error e) := by
  refine ⟨?_, ?_, ?_, ?_⟩
  · intro elem rest st strict un filter h
    have hp : ArtistParseRecords elem = .error (requiredMsg "id") := by
      simp [ArtistParseRecords, ArtistParse, require_int, h, except_bind_error, Except.map]
    exact ⟨requiredMsg "id", hp,
      (executeLoop_parse_error _ _ _ _ _ _ _ _ _ hp).1,
      (executeLoop_parse_error _ _ _ _ _ _ _ _ _ hp).2⟩
  · intro elem rest st strict un filter h
    cases hpl : parseParentLabel elem with
    | error e =>
        have hp : LabelParseRecords elem = .error e := by
          simp [LabelParseRecords, LabelParse, hpl, except_bind_error, Except.map]
        exact ⟨e, hp, (executeLoop_parse_error _ _ _ _ _ _ _ _ _ hp).1,
          (executeLoop_parse_error _ _ _ _ _ _ _ _ _ hp).2⟩
    | ok v =>
        have hp : LabelParseRecords elem = .error (requiredMsg "id") := by
          simp [LabelParseRecords, LabelParse, hpl, require_int, h, except_bind_ok,
            except_bind_error, Except.map]
        exact ⟨requiredMsg "id", hp,
          (executeLoop_parse_error _ _ _ _ _ _ _ _ _ hp).1,
          (executeLoop_parse_error _ _ _ _ _ _ _ _ _ hp).2⟩
  · intro elem rest st strict un filter h
    cases hy : pyIntOptional (elem.findtextOpt "year") with
    | error e =>
        have hp : MasterReleaseParseRecords elem = .error e := by
          simp [MasterReleaseParseRecords, MasterReleaseParse, hy, except_bind_error, Except.map]
        exact ⟨e, hp, (executeLoop_parse_error _ _ _ _ _ _ _ _ _ hp).1,
          (executeLoop_parse_error _ _ _ _ _ _ _ _ _ hp).2⟩
    | ok y =>
        cases hm : pyIntOptional (elem.findtextOpt "main_release") with
        | error e =>
            have hp : MasterReleaseParseRecords elem = .error e := by
              simp [MasterReleaseParseRecords, MasterReleaseParse, hy, hm, except_bind_ok,
                except_bind_error, Except.map]
            exact ⟨e, hp, (executeLoop_parse_error _ _ _ _ _ _ _ _ _ hp).1,
              (executeLoop_parse_error _ _ _ _ _ _ _ _ _ hp).2⟩
        | ok m =>
            have hp : MasterReleaseParseRecords elem = .error (requiredMsg "id") := by
              simp [MasterReleaseParseRecords, MasterReleaseParse, hy, hm, require_int, h,
                except_bind_ok, except_bind_error, Except.map]
            exact ⟨requiredMsg "id", hp,
              (executeLoop_parse_error _ _ _ _ _ _ _ _ _ hp).1,
              (executeLoop_parse_error _ _ _ _ _ _ _ _ _ hp).2⟩
  · intro elem rest st strict un filter h
    have hp : ReleaseParseRecords elem = .error (requiredMsg "id") := by
      simp [ReleaseParseRecords, ReleaseParse, require_int, h, except_bind_error, Except.map]
    exact ⟨requiredMsg "id", hp,
      (executeLoop_parse_error _ _ _ _ _ _ _ _ _ hp).1,
      (executeLoop_parse_error _ _ _ _ _ _ _ _ _ hp).2⟩

/-- Witness for C6: an `<artist>` without any id child and a `<master>`
with an empty id attribute, run through the driver. -/
theorem required_id_policy_witness :
    (∃ e, ArtistParseRecords (.mk "artist" [] none [.mk "name" [] (some "A") []]) =
        .error e ∧
      executeLoop "artist" ArtistParseRecords false false (fun _ => []) none
          [.mk "artist" [] none [.mk "name" [] (some "A") []]]
          (initSummary, []) =
        executeLoop "artist" ArtistParseRecords false false (fun _ => []) none []
          (record_unhandled
            ("Parse error in artist id=" ++
              elementId (.mk "artist" [] none [.mk "name" [] (some "A") []]) ++
              ": " ++ e) initSummary, []) ∧
      executeLoop "artist" ArtistParseRecords true false (fun _ => []) none
          [.mk "artist" [] none [.mk "name" [] (some "A") []]]
          (initSummary, []) = .error e) ∧
    (∃ e, MasterReleaseParseRecords (.mk "master" [("id", "")] none []) = .error e ∧
      executeLoop "master" MasterReleaseParseRecords false false (fun _ => []) none
          [.mk "master" [("id", "")] none []] (initSummary, []) =
        executeLoop "master" MasterReleaseParseRecords false false (fun _ => []) none []
          (record_unhandled
            ("Parse error in master id=" ++
              elementId (.mk "master" [("id", "")] none []) ++ ": " ++ e)
            initSummary, []) ∧
      executeLoop "master" MasterReleaseParseRecords true false (fun _ => []) none
          [.mk "master" [("id", "")] none []] (initSummary, []) = .error e) :=
  ⟨required_id_policy.1 (.mk "artist" [] none [.mk "name" [] (some "A") []])
      [] (initSummary, []) false (fun _ => []) none (by decide),
   required_id_policy.2.2.1 (.mk "master" [("id", "")] none [])
      [] (initSummary, []) false (fun _ => []) none (by decide)⟩

/-! ### Relational-sink claims (C5) -/

theorem totalRows_bufferAppend_self (st : SqliteWriterState) (t : String)
    (row : List PyVal) :
    totalRows (bufferAppend st t row) t = totalRows st t + 1 := by
  simp [bufferAppend, totalRows, alistGet_alistSet_self]
  omega

theorem totalRows_bufferAppend_ne (st : SqliteWriterState) (t u : String)
    (row : List PyVal) (h : t ≠ u) :
    totalRows (bufferAppend st t row) u = totalRows st u := by
  simp [bufferAppend, totalRows, alistGet_alistSet_ne _ _ _ _ h]

theorem totalRows_flushTable (st : SqliteWriterState) (t u : String) :
    totalRows (flushTable st t) u = totalRows st u := by
  unfold flushTable
  by_cases hempty : ((alistGet st.buffers t).getD []).isEmpty
  · simp [hempty]
  · by_cases htu : t = u
    · subst htu
      simp [hempty, totalRows, alistGet_alistSet_self]
    · simp [hempty, totalRows, alistGet_alistSet_ne _ _ _ _ htu]

theorem totalRows_maybeFlush (st : SqliteWriterState) (t u : String) :
    totalRows (maybeFlush st t) u = totalRows st u := by
  unfold maybeFlush
  by_cases h : ((alistGet st.buffers t).getD []).length ≥ st.batch_size
  · simp [h, totalRows_flushTable]
  · simp [h]

theorem junction_tables_bufferAppend (st : SqliteWriterState) (t : String)
    (row : List PyVal) :
    (bufferAppend st t row).junction_tables = st.junction_tables := rfl

theorem junction_tables_flushTable (st : SqliteWriterState) (t : String) :
    (flushTable st t).junction_tables = st.junction_tables := by
  unfold flushTable
  by_cases h : ((alistGet st.buffers t).getD []).isEmpty <;> simp [h]

theorem junction_tables_maybeFlush (st : SqliteWriterState) (t : String) :
    (maybeFlush st t).junction_tables = st.junction_tables := by
  unfold maybeFlush
  by_cases h : ((alistGet st.buffers t).getD []).length ≥ st.batch_size <;>
    simp [h, junction_tables_flushTable]

theorem batch_size_bufferAppend (st : SqliteWriterState) (t : String)
    (row : List PyVal) : (bufferAppend st t row).batch_size = st.batch_size := rfl

theorem foldl_conditional_append_junction_tables
    (g : SqliteWriterState → PyVal → SqliteWriterState)
    (hg : ∀ st item, (g st item).junction_tables = st.junction_tables)
    (vs : List PyVal) (st : SqliteWriterState) :
    (vs.foldl g st).junction_tables = st.junction_tables := by
  induction vs generalizing st with
  | nil => rfl
  | cons v vs ih => simp [List.foldl, ih, hg]

theorem junctionStep_junction_tables (rec : SqlRecord) (rid : PyVal)
    (tn : String) (st : SqliteWriterState) (f : String) :
    (junctionStep rec rid tn st f).junction_tables = st.junction_tables := by
  unfold junctionStep
  cases hjt : alistGet st.junction_tables (tn, f) with
  | none => rfl
  | some p =>
      obtain ⟨jt, ea⟩ := p
      by_cases htr : pyTruthy ((alistGet rec.fields f).getD PyVal.vnone)
      · cases hv : (alistGet rec.fields f).getD PyVal.vnone with
        | vlist vs =>
            rw [hv] at htr
            simp only [hv, htr, if_true]
            rw [junction_tables_maybeFlush,
              foldl_conditional_append_junction_tables]
            intro st' item
            by_cases h1 : ea = .eInt ∨ ea = .eStr
            · simp [h1, junction_tables_bufferAppend]
            · by_cases h2 : ea = .eDataclass <;>
                simp [h1, h2, junction_tables_bufferAppend]
        | vnone => simp [hv, htr]
        | vbool b => simp [hv, htr]
        | vint n => simp [hv, htr]
        | vstr s => simp [hv, htr]
        | vobj fs => simp [hv, htr]
      · simp [htr]

theorem foldl_append_totalRows_self (jt : String) (g : PyVal → List PyVal)
    (vs : List PyVal) (st : SqliteWriterState) :
    totalRows (vs.foldl (fun st item => bufferAppend st jt (g item)) st) jt =
      totalRows st jt + vs.length := by
  induction vs generalizing st with
  | nil => simp
  | cons v vs ih =>
      simp [List.foldl, ih, totalRows_bufferAppend_self]
      omega

theorem foldl_append_totalRows_ne (jt u : String) (g : PyVal → List PyVal)
    (vs : List PyVal) (st : SqliteWriterState) (h : jt ≠ u) :
    totalRows (vs.foldl (fun st item => bufferAppend st jt (g item)) st) u =
      totalRows st u := by
  induction vs generalizing st with
  | nil => rfl
  | cons v vs ih => simp [List.foldl, ih, totalRows_bufferAppend_ne _ _ _ _ h]

theorem foldl_totalRows_invariant (g : SqliteWriterState → PyVal → SqliteWriterState)
    (u : String) (hg : ∀ st item, totalRows (g st item) u = totalRows st u)
    (vs : List PyVal) (st : SqliteWriterState) :
    totalRows (vs.foldl g st) u = totalRows st u := by
  induction vs generalizing st with
  | nil => rfl
  | cons v vs ih => simp [List.foldl, ih, hg]

theorem junctionStep_totalRows_other (rec : SqlRecord) (rid : PyVal)
    (tn : String) (st : SqliteWriterState) (f u : String)
    (h : ∀ jt e, alistGet st.junction_tables (tn, f) = some (jt, e) → jt ≠ u) :
    totalRows (junctionStep rec rid tn st f) u = totalRows st u := by
  unfold junctionStep
  cases hjt : alistGet st.junction_tables (tn, f) with
  | none => rfl
  | some p =>
      obtain ⟨jt, ea⟩ := p
      have hne : jt ≠ u := h jt ea hjt
      by_cases htr : pyTruthy ((alistGet rec.fields f).getD PyVal.vnone)
      · cases hv : (alistGet rec.fields f).getD PyVal.vnone with
        | vlist vs =>
            rw [hv] at htr
            simp only [hv, htr, if_true]
            rw [totalRows_maybeFlush]
            apply foldl_totalRows_invariant
            intro st' item
            by_cases h1 : ea = .eInt ∨ ea = .eStr
            · simp [h1, totalRows_bufferAppend_ne _ _ _ _ hne]
            · by_cases h2 : ea = .eDataclass <;>
                simp [h1, h2, totalRows_bufferAppend_ne _ _ _ _ hne]
        | vnone => simp [hv, htr]
        | vbool b => simp [hv, htr]
        | vint n => simp [hv, htr]
        | vstr s => simp [hv, htr]
        | vobj fs => simp [hv, htr]
      · simp [htr]

theorem junctionStep_totalRows_self (rec : SqlRecord) (rid : PyVal)
    (tn : String) (st : SqliteWriterState) (F jtF : String) (ea : ElemAnn)
    (vs : List PyVal)
    (hjt : alistGet st.junction_tables (tn, F) = some (jtF, ea))
    (hea : ea = .eInt ∨ ea = .eStr ∨ ea = .eDataclass)
    (hval : alistGet rec.fields F = some (.vlist vs)) :
    totalRows (junctionStep rec rid tn st F) jtF = totalRows st jtF + vs.length := by
  unfold junctionStep
  rw [hjt, hval]
  cases vs with
  | nil => simp [pyTruthy]
  | cons v vs =>
      simp only [Option.getD_some, pyTruthy, List.isEmpty_cons, Bool.not_false,
        if_true]
      rw [totalRows_maybeFlush]
      rcases hea with h | h | h
      · subst h
        simpa using foldl_append_totalRows_self jtF (fun item => [rid, item])
          (v :: vs) st
      · subst h
        simpa using foldl_append_totalRows_self jtF (fun item => [rid, item])
          (v :: vs) st
      · subst h
        simpa using foldl_append_totalRows_self jtF
          (fun item => rid :: dataclassToRow item) (v :: vs) st

theorem junction_fold_avoid (rec : SqlRecord) (rid : PyVal) (tn u : String)
    (JT : List ((String × String) × (String × ElemAnn)))
    (names : List String)
    (h : ∀ f ∈ names, ∀ jt e, alistGet JT (tn, f) = some (jt, e) → jt ≠ u) :
    ∀ st : SqliteWriterState, st.junction_tables = JT →
      totalRows (names.foldl (junctionStep rec rid tn) st) u = totalRows st u := by
  induction names with
  | nil => intro st _; rfl
  | cons n ns ih =>
      intro st hJT
      simp only [List.foldl]
      rw [ih (fun f hf => h f (List.mem_cons_of_mem n hf)) _
        (by rw [junctionStep_junction_tables, hJT])]
      exact junctionStep_totalRows_other rec rid tn st n u
        (by rw [hJT]; exact h n (List.mem_cons_self n ns))

theorem junction_fold_self (rec : SqlRecord) (rid : PyVal) (tn : String)
    (JT : List ((String × String) × (String × ElemAnn)))
    (F jtF : String) (ea : ElemAnn) (vs : List PyVal)
    (hg : alistGet JT (tn, F) = some (jtF, ea))
    (hea : ea = .eInt ∨ ea = .eStr ∨ ea = .eDataclass)
    (hval : alistGet rec.fields F = some (.vlist vs))
    (hother : ∀ f jt e, f ≠ F → alistGet JT (tn, f) = some (jt, e) → jt ≠ jtF) :
    ∀ (names : List String), names.Nodup → F ∈ names →
      ∀ st : SqliteWriterState, st.junction_tables = JT →
        totalRows (names.foldl (junctionStep rec rid tn) st) jtF =
          totalRows st jtF + vs.length := by
  intro names
  induction names with
  | nil => intro _ hmem; simp at hmem
  | cons n ns ih =>
      intro hnd hmem st hJT
      simp only [List.foldl]
      by_cases hn : n = F
      · subst hn
        have hF : n ∉ ns := (List.nodup_cons.mp hnd).1
        rw [junction_fold_avoid rec rid tn jtF JT ns
          (fun f hf jt e hfa => hother f jt e (fun hfF => hF (hfF ▸ hf)) hfa) _
          (by rw [junctionStep_junction_tables, hJT])]
        exact junctionStep_totalRows_self rec rid tn st n jtF ea vs
          (by rw [hJT]; exact hg) hea hval
      · have hmem' : F ∈ ns := by
          cases List.mem_cons.mp hmem with
          | inl h => exact absurd h.symm hn
          | inr h => exact h
        rw [ih (List.nodup_cons.mp hnd).2 hmem' _
          (by rw [junctionStep_junction_tables, hJT])]
        rw [junctionStep_totalRows_other rec rid tn st n jtF
          (by rw [hJT]; exact fun jt e hfa => hother n jt e hn hfa)]

theorem cjf_shape (tn : String) (sc : List String) :
    ∀ (anns : List (String × FieldAnn)) (p : String × (String × ElemAnn)),
      p ∈ computeJunctionFields tn sc anns →
      p.2.1 = tn ++ "_" ++ singularize p.1 := by
  intro anns
  induction anns with
  | nil => intro p hp; simp [computeJunctionFields] at hp
  | cons a rest ih =>
      obtain ⟨field, ann⟩ := a
      intro p hp
      cases ann with
      | nonList => exact ih p (by simpa [computeJunctionFields] using hp)
      | listOf e =>
          by_cases hc : (e = .eInt ∨ e = .eStr ∨ e = .eDataclass) ∧
              (sc = [] ∨ field ∉ sc)
          · simp only [computeJunctionFields, hc, if_true] at hp
            cases List.mem_cons.mp hp with
            | inl h => rw [h]
            | inr h => exact ih p h
          · simp only [computeJunctionFields, hc, if_false] at hp
            exact ih p hp

theorem cjf_alistGet (tn : String) (sc : List String) (F : String) (ea : ElemAnn)
    (hea : ea = .eInt ∨ ea = .eStr ∨ ea = .eDataclass) (hcol : sc = [] ∨ F ∉ sc) :
    ∀ (anns : List (String × FieldAnn)),
      alistGet anns F = some (.listOf ea) →
      alistGet (computeJunctionFields tn sc anns) F =
        some (tn ++ "_" ++ singularize F, ea) := by
  intro anns
  induction anns with
  | nil => intro h; simp [alistGet] at h
  | cons a rest ih =>
      obtain ⟨k, ann⟩ := a
      intro h
      by_cases hk : k = F
      · subst hk
        have hann : ann = FieldAnn.listOf ea := by
          simpa [alistGet] using h
        subst hann
        simp [computeJunctionFields, hea, hcol, alistGet]
      · have h' : alistGet rest F = some (.listOf ea) := by
          simpa [alistGet, hk] using h
        cases ann with
        | nonList => simpa [computeJunctionFields] using ih h'
        | listOf e =>
            by_cases hc : (e = .eInt ∨ e = .eStr ∨ e = .eDataclass) ∧
                (sc = [] ∨ k ∉ sc)
            · simp only [computeJunctionFields, hc, if_true]
              simpa [alistGet, hk] using ih h'
            · simp only [computeJunctionFields, hc, if_false]
              exact ih h'

theorem alistGet_JTmap (tn : String)
    (jf : List (String × (String × ElemAnn))) (f : String) :
    alistGet (jf.map (fun p => ((tn, p.1), p.2))) (tn, f) = alistGet jf f := by
  induction jf with
  | nil => rfl
  | cons p rest ih =>
      obtain ⟨p1, p2⟩ := p
      by_cases h : p1 = f
      · simp [alistGet, h]
      · simp [alistGet, h, ih]

theorem cjf_fst_sublist (tn : String) (sc : List String) :
    ∀ anns : List (String × FieldAnn),
      List.Sublist ((computeJunctionFields tn sc anns).map Prod.fst)
        (anns.map Prod.fst) := by
  intro anns
  induction anns with
  | nil => simp [computeJunctionFields]
  | cons a rest ih =>
      obtain ⟨field, ann⟩ := a
      cases ann with
      | nonList =>
          simpa [computeJunctionFields] using List.Sublist.cons field ih
      | listOf e =>
          by_cases hc : (e = .eInt ∨ e = .eStr ∨ e = .eDataclass) ∧
              (sc = [] ∨ field ∉ sc)
          · simp only [computeJunctionFields, hc, if_true, List.map_cons]
            exact List.Sublist.cons₂ field ih
          · simp only [computeJunctionFields, hc, if_false, List.map_cons]
            exact List.Sublist.cons field ih

theorem append_underscore_ne (t s : String) : t ++ "_" ++ s ≠ t := by
  intro h
  have hd := congrArg String.data h
  rw [String.data_append, String.data_append] at hd
  have hl := congrArg List.length hd
  simp [List.length_append] at hl

theorem totalRows_of_empty (st : SqliteWriterState) (u : String)
    (hdb : st.db = []) (hbuf : ∀ p ∈ st.buffers, p.2 = []) :
    totalRows st u = 0 := by
  unfold totalRows
  rw [hdb]
  cases hg : alistGet st.buffers u with
  | none => simp [alistGet, hg]
  | some l =>
      have hl : l = [] := hbuf (u, l) (alistGet_mem _ _ _ hg)
      simp [alistGet, hg, hl]

theorem registerTable_junction_tables (st : SqliteWriterState) (n : String) :
    (registerTable st n).junction_tables = st.junction_tables := rfl

theorem registerTable_junction_fields (st : SqliteWriterState) (n : String) :
    (registerTable st n).junction_fields = st.junction_fields := rfl

theorem registerTable_db (st : SqliteWriterState) (n : String) :
    (registerTable st n).db = st.db := rfl

theorem alistSet_forall {κ β : Type} [DecidableEq κ] (P : β → Prop)
    (k : κ) (v : β) (hv : P v) :
    ∀ m : List (κ × β), (∀ p ∈ m, P p.2) → ∀ p ∈ alistSet m k v, P p.2 := by
  intro m
  induction m with
  | nil =>
      intro _ p hp
      simp [alistSet] at hp
      rw [hp]
      exact hv
  | cons hd tl ih =>
      obtain ⟨k0, w⟩ := hd
      intro h p hp
      simp only [alistSet] at hp
      by_cases hk : k0 = k
      · rw [if_pos hk] at hp
        cases List.mem_cons.mp hp with
        | inl h1 =>
            rw [h1]
            exact hv
        | inr h2 => exact h p (List.mem_cons_of_mem _ h2)
      · rw [if_neg hk] at hp
        cases List.mem_cons.mp hp with
        | inl h1 =>
            rw [h1]
            exact h (k0, w) (List.mem_cons_self _ _)
        | inr h2 =>
            exact ih (fun q hq => h q (List.mem_cons_of_mem _ hq)) p h2

theorem registerTable_buffers_forall (st : SqliteWriterState) (n : String)
    (h : ∀ p ∈ st.buffers, p.2 = ([] : List (List PyVal))) :
    ∀ p ∈ (registerTable st n).buffers, p.2 = ([] : List (List PyVal)) :=
  alistSet_forall (fun b => b = []) n [] rfl st.buffers h

theorem registerFold_junction_tables
    (l : List (String × (String × ElemAnn))) :
    ∀ st : SqliteWriterState,
      (l.foldl (fun s p => registerTable s p.2.1) st).junction_tables =
        st.junction_tables := by
  induction l with
  | nil => intro st; rfl
  | cons a rest ih =>
      intro st
      rw [List.foldl_cons, ih, registerTable_junction_tables]

theorem registerFold_junction_fields
    (l : List (String × (String × ElemAnn))) :
    ∀ st : SqliteWriterState,
      (l.foldl (fun s p => registerTable s p.2.1) st).junction_fields =
        st.junction_fields := by
  induction l with
  | nil => intro st; rfl
  | cons a rest ih =>
      intro st
      rw [List.foldl_cons, ih, registerTable_junction_fields]

theorem registerFold_db
    (l : List (String × (String × ElemAnn))) :
    ∀ st : SqliteWriterState,
      (l.foldl (fun s p => registerTable s p.2.1) st).db = st.db := by
  induction l with
  | nil => intro st; rfl
  | cons a rest ih =>
      intro st
      rw [List.foldl_cons, ih, registerTable_db]

theorem registerFold_buffers_forall
    (l : List (String × (String × ElemAnn))) :
    ∀ st : SqliteWriterState,
      (∀ p ∈ st.buffers, p.2 = ([] : List (List PyVal))) →
      ∀ p ∈ (l.foldl (fun s p => registerTable s p.2.1) st).buffers,
        p.2 = ([] : List (List PyVal)) := by
  induction l with
  | nil => intro st h; exact h
  | cons a rest ih =>
      intro st h
      rw [List.foldl_cons]
      exact ih _ (registerTable_buffers_forall st a.2.1 h)

/-- `_ensure_table` on a record type not seen before: derives the junction
bookkeeping and registers the main and junction tables.  The dataclass
hypothesis discharges the `_get_field_names` call of the dynamic-schema
fallback taken when no canned DDL exists. -/
theorem ensureTable_fresh (canned : Option (List String))
    (st : SqliteWriterState) (rec : SqlRecord)
    (hdc : rec.isDataclass = true)
    (hnot : pyLower rec.typeName ∉ st.tables) :
    ensureTable canned st rec = Except.ok (pyLower rec.typeName,
      (computeJunctionFields (pyLower rec.typeName) (canned.getD [])
          rec.annotations).foldl (fun s p => registerTable s p.2.1)
        (registerTable
          { st with
            junction_tables := st.junction_tables ++
              (computeJunctionFields (pyLower rec.typeName) (canned.getD [])
                rec.annotations).map
                  (fun p => ((pyLower rec.typeName, p.1), p.2)),
            junction_fields := st.junction_fields ++
              [(pyLower rec.typeName,
                (computeJunctionFields (pyLower rec.typeName) (canned.getD [])
                  rec.annotations).map (fun p => p.1))] }
          (pyLower rec.typeName))) := by
  cases canned with
  | some cols => simp [ensureTable, hnot]
  | none => simp [ensureTable, hnot, get_field_names, hdc, except_bind_ok]

/-- For records the writer's field access supports — actual dataclasses —
a single `SqliteWriter.write` of a record of type `R` carrying a
junction-list field `F` with `k` elements succeeds and produces exactly
one main-table row for `R` and exactly `k` rows in the junction table
named `<r>_<singular(F)>`, whether or not a canned DDL schema exists.
The hypotheses state that the record is a dataclass, that `F` is
annotated as a junction-eligible list (`list[int]`, `list[str]` or
`list[dataclass]`), is not claimed by the canned schema's columns, that
annotation names are unique, that the record holds `k` values in `F`,
and that no other junction field of the type maps to the same
junction-table name (a name collision would conflate buffers in the
Python dict as well).  No record produced by this pipeline satisfies
`isDataclass = true`: see `sqlite_write_namedtuple_raises`. -/
theorem dataclass_write_junction_rows
    (canned : Option (List String)) (rec : SqlRecord) (F : String)
    (ea : ElemAnn) (vs : List PyVal) (bs : Nat)
    (hdc : rec.isDataclass = true)
    (hann : alistGet rec.annotations F = some (.listOf ea))
    (hea : ea = .eInt ∨ ea = .eStr ∨ ea = .eDataclass)
    (hcol : canned.getD [] = [] ∨ F ∉ canned.getD [])
    (hnodup : (rec.annotations.map Prod.fst).Nodup)
    (hval : alistGet rec.fields F = some (.vlist vs))
    (hdist : ∀ p ∈ computeJunctionFields (pyLower rec.typeName)
        (canned.getD []) rec.annotations,
      p.1 ≠ F →
      p.2.1 ≠ (pyLower rec.typeName) ++ "_" ++ singularize F) :
    ∃ st' : SqliteWriterState,
      sqliteWrite canned (initSqliteState bs) rec = Except.ok st' ∧
      totalRows st' (pyLower rec.typeName) = 1 ∧
      totalRows st' ((pyLower rec.typeName) ++ "_" ++ singularize F) =
        vs.length := by
  set sc := canned.getD [] with hsc
  set tn := pyLower rec.typeName with htn
  set jf := computeJunctionFields tn sc rec.annotations with hjf
  set JT := jf.map (fun p => ((tn, p.1), p.2)) with hJT
  set names := jf.map (fun p => p.1) with hnames
  set jtF := tn ++ "_" ++ singularize F with hjtF
  set rid := (((rec.fields.map Prod.fst).head?).bind
      (fun nm => alistGet rec.fields nm)).getD PyVal.vnone with hrid
  set mv := buildMainValues names rec.fields with hmv
  set ST1 := jf.foldl (fun s p => registerTable s p.2.1)
      (registerTable
        { batch_size := bs, tables := [], buffers := [], db := [],
          junction_tables := JT, junction_fields := [(tn, names)] } tn)
    with hST1
  have hens : ensureTable canned (initSqliteState bs) rec =
      Except.ok (tn, ST1) := by
    rw [ensureTable_fresh canned (initSqliteState bs) rec hdc
      (by simp [initSqliteState])]
    simp [initSqliteState, hST1, hJT, hnames, hjf, hsc, htn]
  have hST1jt : ST1.junction_tables = JT := by
    rw [hST1, registerFold_junction_tables, registerTable_junction_tables]
  have hST1jf : ST1.junction_fields = [(tn, names)] := by
    rw [hST1, registerFold_junction_fields, registerTable_junction_fields]
  have hST1db : ST1.db = [] := by
    rw [hST1, registerFold_db, registerTable_db]
  have hST1buf : ∀ p ∈ ST1.buffers, p.2 = ([] : List (List PyVal)) := by
    rw [hST1]
    refine registerFold_buffers_forall jf _ ?_
    intro p hp
    simp [registerTable, alistSet] at hp
    rw [hp]
  have hgfn : get_field_names rec = Except.ok (rec.fields.map Prod.fst) := by
    simp [get_field_names, hdc]
  set FS := names.foldl (junctionStep rec rid tn)
      (maybeFlush (bufferAppend ST1 tn mv) tn) with hFS
  have hsw : sqliteWrite canned (initSqliteState bs) rec = Except.ok FS := by
    have hgf : alistGet ST1.junction_fields tn = some names := by
      rw [hST1jf]
      simp [alistGet]
    simp [sqliteWrite, except_bind_ok, hens, hgf, hgfn, hFS, hrid, hmv]
  have hST1zero : ∀ u : String, totalRows ST1 u = 0 := fun u =>
    totalRows_of_empty ST1 u hST1db hST1buf
  have hpres : (maybeFlush (bufferAppend ST1 tn mv) tn).junction_tables = JT := by
    rw [junction_tables_maybeFlush, junction_tables_bufferAppend, hST1jt]
  have hshape : ∀ p ∈ jf, p.2.1 = tn ++ "_" ++ singularize p.1 :=
    fun p hp => cjf_shape tn sc rec.annotations p hp
  have hgetjf : alistGet jf F = some (jtF, ea) :=
    cjf_alistGet tn sc F ea hea hcol rec.annotations hann
  have hgetJT : alistGet JT (tn, F) = some (jtF, ea) := by
    rw [hJT, alistGet_JTmap]
    exact hgetjf
  have hFnames : F ∈ names := by
    rw [hnames]
    exact List.mem_map_of_mem _ (alistGet_mem _ _ _ hgetjf)
  have hndnames : names.Nodup :=
    (cjf_fst_sublist tn sc rec.annotations).nodup hnodup
  have hother : ∀ f jt e, f ≠ F →
      alistGet JT (tn, f) = some (jt, e) → jt ≠ jtF := by
    intro f jt e hne hget
    rw [hJT, alistGet_JTmap] at hget
    have hmem := alistGet_mem _ _ _ hget
    exact hdist (f, (jt, e)) hmem hne
  have hmain_ne : ∀ f jt e,
      alistGet JT (tn, f) = some (jt, e) → jt ≠ tn := by
    intro f jt e hget
    rw [hJT, alistGet_JTmap] at hget
    have hmem := alistGet_mem _ _ _ hget
    have h2 : jt = tn ++ "_" ++ singularize f := hshape _ hmem
    intro hcontra
    rw [h2] at hcontra
    exact append_underscore_ne tn (singularize f) hcontra
  have htn_ne_jtF : tn ≠ jtF := by
    rw [hjtF]
    exact fun h => append_underscore_ne tn (singularize F) h.symm
  refine ⟨FS, hsw, ?_, ?_⟩
  · rw [hFS, junction_fold_avoid rec rid tn tn JT names
      (fun f _ jt e hget => hmain_ne f jt e hget) _ hpres,
      totalRows_maybeFlush, totalRows_bufferAppend_self, hST1zero]
  · rw [hFS, junction_fold_self rec rid tn JT F jtF ea vs hgetJT hea hval hother
      names hndnames hFnames _ hpres,
      totalRows_maybeFlush, totalRows_bufferAppend_ne _ _ _ _ htn_ne_jtF,
      hST1zero]
    omega

/-- Sanity instance of the dataclass-path theorem: a record shaped like an
artist but actually a dataclass would write one `artist` row and two
`artist_alias` junction rows. -/
theorem dataclass_write_junction_rows_example :
    ∃ st' : SqliteWriterState,
      sqliteWrite none (initSqliteState 10000)
        { typeName := "Artist",
          fields := [("id", .vint 1), ("name", .vstr "A"),
            ("aliases", .vlist
              [.vobj [("id", .vint 100), ("name", .vstr "B")],
               .vobj [("id", .vint 200), ("name", .vstr "C")]])],
          annotations := [("id", .nonList), ("name", .nonList),
            ("aliases", .listOf .eDataclass)],
          isDataclass := true } = Except.ok st' ∧
      totalRows st' "artist" = 1 ∧
      totalRows st' ("artist" ++ "_" ++ singularize "aliases") = 2 := by
  have h := dataclass_write_junction_rows none
    { typeName := "Artist",
      fields := [("id", .vint 1), ("name", .vstr "A"),
        ("aliases", .vlist
          [.vobj [("id", .vint 100), ("name", .vstr "B")],
           .vobj [("id", .vint 200), ("name", .vstr "C")]])],
      annotations := [("id", .nonList), ("name", .nonList),
        ("aliases", .listOf .eDataclass)],
      isDataclass := true }
    "aliases" .eDataclass
    [.vobj [("id", .vint 100), ("name", .vstr "B")],
     .vobj [("id", .vint 200), ("name", .vstr "C")]] 10000
    rfl (by decide) (Or.inr (Or.inr rfl)) (Or.inl rfl) (by decide) rfl
    (by decide)
  exact h

/-- C5 (code_bug): the relational sink cannot complete a single write of
any pipeline record.  The records of `models.py` are `NamedTuple`s, not
dataclasses, so `_get_field_names` — called by `SqliteWriter.write` on
every record — invokes `dataclasses.fields` on a non-dataclass and raises
`TypeError`, aborting the write before any main-table or junction row is
buffered; this holds whether or not a canned DDL schema exists for the
table.  The junction machinery itself does derive the claimed tables for
the plain string lists (`urls` to `artist_url`, `name_variations` to
`artist_name_variation`, by the trailing-s singularization), while the
`list[ArtistRef]` fields are not junction-eligible because `is_dataclass`
is false for `NamedTuple` element types. -/
theorem sqlite_write_namedtuple_raises :
    artistRecord.isDataclass = false ∧
    get_field_names artistRecord = Except.error typeErrorMsg ∧
    computeJunctionFields (pyLower artistRecord.typeName) []
        artistRecord.annotations =
      [("name_variations", ("artist_name_variation", ElemAnn.eStr)),
       ("urls", ("artist_url", ElemAnn.eStr))] ∧
    (∀ canned : Option (List String),
      sqliteWrite canned (initSqliteState 10000) artistRecord =
        Except.error typeErrorMsg) := by
  refine ⟨rfl, rfl, by decide, ?_⟩
  intro canned
  cases canned with
  | none =>
      simp [sqliteWrite, ensureTable, get_field_names, artistRecord,
        initSqliteState, except_bind_ok, except_bind_error]
  | some cols =>
      simp [sqliteWrite, ensureTable, get_field_names, artistRecord,
        initSqliteState, except_bind_ok, except_bind_error]

end Dgkit
